import Mathlib

/-!
Verification development for the `shopcart` repository.

The shallow embedding below translates the persistent cart state manager
(`src/js/cart.js`), the core data models (`Product` / `CartItem`), the input
validator and the data-recovery / backup module (the validation source file)
into Lean.  JavaScript numbers are modelled as rationals (`ℚ`), JavaScript
strings as `String`, parsed JSON values as the inductive type `Json`, the
`localStorage` key-value store as an association list together with a failure
mode flag, and exceptions as `Except String`.
-/

set_option maxHeartbeats 1600000

namespace ShopCart

/-- Model of a JavaScript JSON value (the result of `JSON.parse`, and the
JavaScript values the modules pass around).  Object fields keep their textual
order; duplicate keys are resolved by `Json.getField` taking the last
occurrence, matching `JSON.parse`. -/
inductive Json where
  | null : Json
  | bool (b : Bool) : Json
  | num (q : ℚ) : Json
  | str (s : String) : Json
  | arr (elems : List Json) : Json
  | obj (fields : List (String × Json)) : Json
deriving Repr, Inhabited

/-- JavaScript truthiness of a value: `null`, `false`, `0` and `""` are falsy,
every object and array is truthy. -/
def Json.truthy : Json → Bool
  | .null => false
  | .bool b => b
  | .num q => q != 0
  | .str s => s ≠ ""
  | .arr _ => true
  | .obj _ => true

/-- Property access `value.key` on a parsed JSON value: defined only on
objects (last occurrence of the key wins, as in `JSON.parse`), `none`
models JavaScript `undefined`. -/
def Json.getField : Json → String → Option Json
  | .obj fields, k => (fields.reverse.find? (fun p => p.1 = k)).map Prod.snd
  | _, _ => none

/-! ### Strict JSON parsing (model of `JSON.parse`)

A recursive-descent parser over the character list of the stored text.  It is
strict in the ways that matter to the data-recovery module: unbalanced
brackets, trailing commas and unquoted keys are rejected, and trailing
non-whitespace after the value is rejected. -/

/-- Whitespace accepted by `JSON.parse` between tokens. -/
def jsonWs (c : Char) : Bool :=
  c = ' ' || c = '\t' || c = '\n' || c = '\x0d'

/-- Decimal digit test. -/
def isDigitCh (c : Char) : Bool := '0' ≤ c && c ≤ '9'

/-- Numeric value of a digit list read in base 10. -/
def digitsToNat (ds : List Char) : ℕ :=
  ds.foldl (fun acc c => acc * 10 + (c.toNat - '0'.toNat)) 0

/-- Parse the JSON number grammar at the head of the input: optional minus,
integer part without leading zeros, optional fraction, optional exponent.
Returns the rational value and the remaining input. -/
def parseNumber (cs : List Char) : Option (ℚ × List Char) :=
  let (neg, cs₁) := match cs with
    | '-' :: rest => (true, rest)
    | _ => (false, cs)
  match cs₁ with
  | [] => none
  | c :: _ =>
    if !isDigitCh c then none else
    let intDigits := cs₁.takeWhile isDigitCh
    let cs₂ := cs₁.dropWhile isDigitCh
    -- JSON forbids leading zeros in the integer part
    if intDigits.length > 1 && intDigits.headD '0' = '0' then none else
    let intPart : ℚ := (digitsToNat intDigits : ℚ)
    match cs₂ with
    | '.' :: rest =>
      let fds := rest.takeWhile isDigitCh
      if fds.isEmpty then none else
      let fracVal := (digitsToNat fds : ℚ) / ((10 : ℚ) ^ fds.length)
      parseExponent (intPart + fracVal) neg (rest.dropWhile isDigitCh)
    | _ => parseExponent intPart neg cs₂
where
  parseExponent (mantissa : ℚ) (neg : Bool) (cs : List Char) :
      Option (ℚ × List Char) :=
    let signed : ℚ := if neg then -mantissa else mantissa
    match cs with
    | 'e' :: rest | 'E' :: rest =>
      let (eneg, rest₁) := match rest with
        | '-' :: r => (true, r)
        | '+' :: r => (false, r)
        | _ => (false, rest)
      let eds := rest₁.takeWhile isDigitCh
      if eds.isEmpty then none else
      let e := digitsToNat eds
      let scaled := if eneg then signed / ((10 : ℚ) ^ e) else signed * ((10 : ℚ) ^ e)
      some (scaled, rest₁.dropWhile isDigitCh)
    | _ => some (signed, cs)

/-- Value of a hexadecimal digit, for `\uXXXX` escapes. -/
def hexVal (c : Char) : Option ℕ :=
  let n := c.toNat
  if isDigitCh c then some (n - 48)
  else if 97 ≤ n ∧ n ≤ 102 then some (n - 97 + 10)
  else if 65 ≤ n ∧ n ≤ 70 then some (n - 65 + 10)
  else none

/-- The single-character escapes of the JSON string grammar. -/
def escCh (c : Char) : Option Char :=
  if c = 'n' then some '\n'
  else if c = 't' then some '\t'
  else if c = 'r' then some '\x0d'
  else if c = 'b' then some '\x08'
  else if c = 'f' then some '\x0c'
  else if c = '"' ∨ c = '\\' ∨ c = '/' then some c
  else none

/-- Prepend a character to the string component of a partial parse. -/
def consCh (c : Char) (r : Option (String × List Char)) : Option (String × List Char) :=
  r.map (fun p => (String.mk (c :: p.1.toList), p.2))

/-- Parse the body of a JSON string literal after the opening quote, handling
the escape sequences accepted by `JSON.parse`. -/
def parseStringBody : List Char → Option (String × List Char)
  | [] => none
  | '"' :: rest => some ("", rest)
  | '\\' :: 'u' :: h₁ :: h₂ :: h₃ :: h₄ :: rest =>
    (match hexVal h₁, hexVal h₂, hexVal h₃, hexVal h₄ with
     | some a, some b, some c, some d =>
       consCh (Char.ofNat (a * 4096 + b * 256 + c * 16 + d)) (parseStringBody rest)
     | _, _, _, _ => none)
  | '\\' :: 'u' :: _ => none
  | '\\' :: e :: rest =>
    (match escCh e with
     | some c => consCh c (parseStringBody rest)
     | none => none)
  | ['\\'] => none
  | c :: rest => if c.toNat < 32 then none else consCh c (parseStringBody rest)

/-- Check that the literal `lit` heads the input and return the rest. -/
def parseLit (lit : List Char) (cs : List Char) : Option (List Char) :=
  if lit.isPrefixOf cs then some (cs.drop lit.length) else none

mutual

/-- Parse one JSON value at the head of the input (whitespace already
consumed handled by the caller); `fuel` strictly exceeds the input length. -/
def parseValue : ℕ → List Char → Option (Json × List Char)
  | 0, _ => none
  | _ + 1, [] => none
  | fuel + 1, c :: cs =>
    match c with
    | 'n' => (parseLit ['u', 'l', 'l'] cs).map (fun r => (Json.null, r))
    | 't' => (parseLit ['r', 'u', 'e'] cs).map (fun r => (Json.bool true, r))
    | 'f' => (parseLit ['a', 'l', 's', 'e'] cs).map (fun r => (Json.bool false, r))
    | '"' => (parseStringBody cs).map (fun p => (Json.str p.1, p.2))
    | '[' =>
      let cs₁ := cs.dropWhile jsonWs
      match cs₁ with
      | ']' :: rest => some (Json.arr [], rest)
      | _ => (parseElems fuel cs₁).map (fun p => (Json.arr p.1, p.2))
    | '{' =>
      let cs₁ := cs.dropWhile jsonWs
      match cs₁ with
      | '}' :: rest => some (Json.obj [], rest)
      | _ => (parseMembers fuel cs₁).map (fun p => (Json.obj p.1, p.2))
    | _ => (parseNumber (c :: cs)).map (fun p => (Json.num p.1, p.2))
termination_by structural fuel => fuel

/-- Parse a non-empty comma-separated list of array elements and the closing
bracket. -/
def parseElems : ℕ → List Char → Option (List Json × List Char)
  | 0, _ => none
  | fuel + 1, cs => do
    let (v, rest) ← parseValue fuel cs
    let rest₁ := rest.dropWhile jsonWs
    match rest₁ with
    | ',' :: rest₂ => do
      let (vs, rest₃) ← parseElems fuel (rest₂.dropWhile jsonWs)
      return (v :: vs, rest₃)
    | ']' :: rest₂ => return ([v], rest₂)
    | _ => none
termination_by structural fuel => fuel

/-- Parse a non-empty comma-separated list of object members and the closing
brace. -/
def parseMembers : ℕ → List Char → Option (List (String × Json) × List Char)
  | 0, _ => none
  | fuel + 1, cs => do
    match cs with
    | '"' :: cs₁ => do
      let (k, rest) ← parseStringBody cs₁
      match rest.dropWhile jsonWs with
      | ':' :: rest₁ => do
        let (v, rest₂) ← parseValue fuel (rest₁.dropWhile jsonWs)
        match rest₂.dropWhile jsonWs with
        | ',' :: rest₃ => do
          let (ms, rest₄) ← parseMembers fuel (rest₃.dropWhile jsonWs)
          return ((k, v) :: ms, rest₄)
        | '}' :: rest₃ => return ([(k, v)], rest₃)
        | _ => none
      | _ => none
    | _ => none
termination_by structural fuel => fuel

end

/-- Model of `JSON.parse`: parse one value surrounded by optional whitespace,
rejecting trailing garbage; `none` models the thrown `SyntaxError`. -/
def parseJson (s : String) : Option Json := do
  let cs := s.toList.dropWhile jsonWs
  let (v, rest) ← parseValue (cs.length + 1) cs
  if (rest.dropWhile jsonWs).isEmpty then some v else none

example : parseJson "\x7b\"a\":1\x7d" = some (Json.obj [("a", Json.num 1)]) := by rfl
example : parseJson "\x7b\"items\":[\x7b\"productId\":1,\"quantity\":2\x7d" = none := by rfl
example : parseJson "[1,true,null]" =
    some (Json.arr [Json.num 1, Json.bool true, Json.null]) := by rfl

/-! ### JavaScript coercions used by the sanitizers -/

/-- Rendering of a rational as JavaScript renders a number with `String()`.
Integral values are rendered exactly; non-integral values are rendered as
`num/den`, a placeholder only ever applied to integral values in the verified
scenarios (the source renders shortest-round-trip decimals there). -/
def jsNumToString (q : ℚ) : String :=
  if q.den = 1 then toString q.num else toString q.num ++ "/" ++ toString q.den

mutual

/-- JavaScript `String(value)` on a parsed JSON value. -/
def jsStringOf : Json → String
  | .null => "null"
  | .bool b => if b then "true" else "false"
  | .num q => jsNumToString q
  | .str s => s
  | .arr xs => jsArrJoin xs
  | .obj _ => "[object Object]"

/-- `Array.prototype.toString`: elements joined with commas, `null` and
nested empties rendering as the empty string. -/
def jsArrJoin : List Json → String
  | [] => ""
  | [x] => jsArrElem x
  | x :: xs => jsArrElem x ++ "," ++ jsArrJoin xs

/-- One array element inside `Array.prototype.toString`: `null` renders
empty, anything else via `String()`. -/
def jsArrElem : Json → String
  | .null => ""
  | v => jsStringOf v

end

/-- Whitespace removed by JavaScript `String.prototype.trim`. -/
def jsTrimWs (c : Char) : Bool :=
  c = ' ' || c = '\t' || c = '\n' || c = '\x0d' || c = '\x0b' || c = '\x0c'

/-- `String.prototype.trim`. -/
def jsTrim (s : String) : String :=
  String.mk (((s.toList.dropWhile jsTrimWs).reverse.dropWhile jsTrimWs).reverse)

/-- Model of JavaScript `parseFloat` restricted to inputs containing only
digits, `.` and `-` (the only characters surviving the sanitizer's strip):
parse the longest numeric lead of the string — optional minus sign, integer
digits, optional fraction — returning `none` for `NaN`. -/
def jsParseFloat (cs : List Char) : Option ℚ :=
  let (neg, cs₁) := match cs with
    | '-' :: rest => (true, rest)
    | _ => (false, cs)
  let intDigits := cs₁.takeWhile isDigitCh
  let cs₂ := cs₁.dropWhile isDigitCh
  let (fracDigits, hasDot) := match cs₂ with
    | '.' :: rest => (rest.takeWhile isDigitCh, true)
    | _ => ([], false)
  if intDigits.isEmpty && (!hasDot || fracDigits.isEmpty) then none
  else
    let mag : ℚ := (digitsToNat intDigits : ℚ) +
      (digitsToNat fracDigits : ℚ) / ((10 : ℚ) ^ fracDigits.length)
    some (if neg then -mag else mag)

/-! ### Input Validator (validation module, `InputValidator`)

`sanitizeNumber` and `sanitizeInteger` model the `number` and `integer`
sanitizers; a JavaScript value is a `Json`, `none` models `undefined`, and
the returned `none` models the sanitizers' `null` result. -/

/-- The `number` sanitizer: `null`/`undefined`/`''` give `null`; a number is
returned as-is; anything else is coerced to a string, stripped of all
characters except digits, decimal point and minus sign, and parsed as a
float (`null` when that yields `NaN`). -/
def sanitizeNumber : Option Json → Option ℚ
  | none => none
  | some .null => none
  | some (.str "") => none
  | some (.num q) => some q
  | some v =>
    let stringValue := jsTrim (jsStringOf v)
    let cleaned := stringValue.toList.filter (fun c => isDigitCh c || c = '.' || c = '-')
    jsParseFloat cleaned

/-- The `integer` sanitizer: the `number` sanitizer followed by `Math.floor`
(the source's comment says "Keep sign, just remove decimals", but
`Math.floor` rounds toward negative infinity, not toward zero). -/
def sanitizeInteger (v : Option Json) : Option ℚ :=
  (sanitizeNumber v).map (fun q => ((⌊q⌋ : ℤ) : ℚ))

/-- Result shape of `InputValidator.validate`. -/
structure ValidationResult where
  isValid : Bool
  errors : List String
  sanitizedValue : Option ℚ
deriving Repr, DecidableEq

/-- `InputValidator.validateQuantity`: the generic `validate` flow at the
`quantity` rule set (required, number, `0 ≤ n ≤ 999`, integer, custom rule
allowing zero), specialised to the integer sanitizer.  After flooring, the
integer check always passes; the `min` and `custom` checks accumulate their
error messages in source order. -/
def validateQuantity (v : Option Json) : ValidationResult :=
  match sanitizeInteger v with
  | none => { isValid := false, errors := ["This field is required"], sanitizedValue := none }
  | some s =>
    let errs :=
      (if s < 0 then ["Value is too small (minimum: 0)"] else []) ++
      (if 999 < s then ["Value is too large (maximum: 999)"] else []) ++
      (if s = 0 || 0 < s then [] else ["Validation failed"])
    { isValid := errs.isEmpty, errors := errs, sanitizedValue := some s }

/-- A product catalog, modelling `productsModule.getProductById` on numeric
ids: the unit price of the product when the id resolves. -/
def Catalog : Type := ℚ → Option ℚ

/-- `InputValidator.validateProductId`: required, number, `n ≥ 1`, integer,
custom existence check against the catalog. -/
def validateProductId (catalog : Catalog) (v : Option Json) : ValidationResult :=
  match sanitizeInteger v with
  | none => { isValid := false, errors := ["This field is required"], sanitizedValue := none }
  | some s =>
    let errs :=
      (if s < 1 then ["Value is too small (minimum: 1)"] else []) ++
      (if (catalog s).isSome then [] else ["Validation failed"])
    { isValid := errs.isEmpty, errors := errs, sanitizedValue := some s }

/-! ### Core data model: `CartItem` -/

/-- An entry of the cart (`CartItem` in the models source file): the raw
product id and quantity are JavaScript numbers, `addedAt` an ISO-8601
timestamp string. -/
structure CartItem where
  productId : ℚ
  quantity : ℚ
  addedAt : String
deriving Repr, DecidableEq

/-- `CartItem.validate`: the product id must be truthy (non-zero) and a
number, the quantity a non-negative integer; the error thrown otherwise is
the returned message. -/
def CartItem.validate (it : CartItem) : Except String Unit :=
  if it.productId = 0 then .error "Product ID must be a valid number"
  else if ¬(it.quantity.den = 1 ∧ 0 ≤ it.quantity) then
    .error "Quantity must be a non-negative integer"
  else .ok ()

/-- The `CartItem` constructor: sets the fields and validates. -/
def CartItem.make (productId quantity : ℚ) (now : String) : Except String CartItem :=
  let it : CartItem := { productId := productId, quantity := quantity, addedAt := now }
  (it.validate).map (fun _ => it)

/-- `CartItem.updateQuantity`: validates the new quantity (non-negative
integer) and mutates it in place. -/
def CartItem.updateQuantity (it : CartItem) (newQuantity : ℚ) : Except String CartItem :=
  if ¬(newQuantity.den = 1 ∧ 0 ≤ newQuantity) then
    .error "Quantity must be a non-negative integer"
  else .ok { it with quantity := newQuantity }

/-- `CartItem.getSubtotal`: throws on a negative (or non-number) price,
otherwise quantity times price. -/
def CartItem.getSubtotal (it : CartItem) (productPrice : ℚ) : Except String ℚ :=
  if productPrice < 0 then .error "Product price must be a non-negative number"
  else .ok (it.quantity * productPrice)

/-- `CartItem.fromObject`: constructs from the raw fields of a parsed object
(missing fields model `undefined`, which fails the constructor validation as
a non-number); a truthy `addedAt` replaces the construction timestamp, via
its string rendering. -/
def CartItem.fromObject (data : Json) (now : String) : Except String CartItem :=
  match data.getField "productId", data.getField "quantity" with
  | some (.num pid), some (.num q) => do
    let it ← CartItem.make pid q now
    match data.getField "addedAt" with
    | some a => if a.truthy then .ok { it with addedAt := jsStringOf a } else .ok it
    | none => .ok it
  | _, _ => .error "Product ID must be a valid number"

/-! ### The `localStorage` model

An association list of key-value pairs in insertion order (modelling the
store's enumeration via `localStorage.key(i)`), plus a failure mode: when
set, every `setItem` throws with that kind of error (quota exceeded, access
denied, or a generic failure). -/

/-- Error kinds distinguished by `CartModule._handleStorageError`. -/
inductive StorageFailKind where
  | quota
  | security
  | generic
deriving Repr, DecidableEq

/-- The key-value store. -/
structure Store where
  entries : List (String × String)
  failMode : Option StorageFailKind
deriving Repr, DecidableEq

/-- `localStorage.getItem` (`null` modelled as `none`). -/
def Store.getItem (st : Store) (k : String) : Option String :=
  (st.entries.find? (fun e => e.1 = k)).map Prod.snd

/-- Association-list update preserving the position of an existing key. -/
def setEntry (k v : String) : List (String × String) → List (String × String)
  | [] => [(k, v)]
  | (k', v') :: rest => if k' = k then (k, v) :: rest else (k', v') :: setEntry k v rest

/-- `localStorage.setItem`: throws in failure mode, otherwise stores. -/
def Store.setItem (st : Store) (k v : String) : Except StorageFailKind Store :=
  match st.failMode with
  | some f => .error f
  | none => .ok { st with entries := setEntry k v st.entries }

/-- `localStorage.removeItem`. -/
def Store.removeItem (st : Store) (k : String) : Store :=
  { st with entries := st.entries.filter (fun e => e.1 ≠ k) }

/-- The keys currently in the store, in enumeration order. -/
def Store.keys (st : Store) : List String := st.entries.map Prod.fst

/-! ### `JSON.stringify` -/

/-- String-literal escaping performed by `JSON.stringify`. -/
def jsonEscape (s : String) : String :=
  String.mk (s.toList.foldr (fun c acc =>
    if c = '"' then '\\' :: '"' :: acc
    else if c = '\\' then '\\' :: '\\' :: acc
    else if c = '\n' then '\\' :: 'n' :: acc
    else if c = '\t' then '\\' :: 't' :: acc
    else if c = '\x0d' then '\\' :: 'r' :: acc
    else c :: acc) [])

mutual

/-- Model of `JSON.stringify` (no theorem inspects serialized payloads; the
rendering of non-integral numbers inherits the `jsNumToString` placeholder).
-/
def stringifyJson : Json → String
  | .null => "null"
  | .bool b => if b then "true" else "false"
  | .num q => jsNumToString q
  | .str s => "\"" ++ jsonEscape s ++ "\""
  | .arr xs => "[" ++ stringifyList xs ++ "]"
  | .obj fs => "\x7b" ++ stringifyFields fs ++ "\x7d"

/-- Array elements, comma separated. -/
def stringifyList : List Json → String
  | [] => ""
  | [x] => stringifyJson x
  | x :: xs => stringifyJson x ++ "," ++ stringifyList xs

/-- Object members, comma separated, keys in insertion order. -/
def stringifyFields : List (String × Json) → String
  | [] => ""
  | [(k, v)] => "\"" ++ jsonEscape k ++ "\":" ++ stringifyJson v
  | (k, v) :: fs => "\"" ++ jsonEscape k ++ "\":" ++ stringifyJson v ++ "," ++ stringifyFields fs

end

/-! ### Cart change notification events -/

/-- The events a `CartModule` listener can observe, with their payloads; the
module appends one per `_notifyListeners` call (listener exceptions are
caught and cannot affect the module, so the event log is the faithful
observable). -/
inductive CartEvent where
  | itemAdded (productId quantity : ℚ)
  | itemRemoved (productId : ℚ)
  | quantityUpdated (productId quantity : ℚ)
  | cartCleared
  | storageQuotaExceeded
  | storageAccessDenied
  | storageGenericError
deriving Repr, DecidableEq

/-! ### Data Recovery module (`DataRecovery`)

Recovery strategies are records of a structural validator, a repair function
and a fallback default.  `validate` and `repair` return `Except` to model the
source's try/catch around them (the concrete strategies below never throw,
which the `Except.ok` images make explicit). -/

/-- A per-kind recovery strategy. -/
structure RecoveryStrategy where
  validate : Json → Except String Bool
  repair : Json → Except String Json
  fallbackValue : Json

/-- The per-item check of the cart validator: the item is truthy, has a
numeric `productId` and a numeric `quantity ≥ 0`. -/
def cartValidItem (item : Json) : Bool :=
  item.truthy &&
  (match item.getField "productId" with | some (.num _) => true | _ => false) &&
  (match item.getField "quantity" with | some (.num q) => decide (0 ≤ q) | _ => false)

/-- The cart structural validator: a truthy object with an `items` array all
of whose entries pass `cartValidItem` (arrays have no `items` field and so
fail). -/
def cartValidate (data : Json) : Bool :=
  match data with
  | .obj _ | .arr _ =>
    (match data.getField "items" with
     | some (.arr items) => items.all cartValidItem
     | _ => false)
  | _ => false

/-- The filter of the cart repair function: the item is truthy with numeric
`productId > 0` and numeric `quantity > 0`. -/
def cartKeepItem (item : Json) : Bool :=
  item.truthy &&
  (match item.getField "productId" with | some (.num p) => decide (0 < p) | _ => false) &&
  (match item.getField "quantity" with | some (.num q) => decide (0 < q) | _ => false)

/-- The map of the cart repair function: floor of absolute value for id and
quantity, `addedAt` kept when truthy and otherwise re-synthesized (the
defaults in the field extraction are unreachable because `cartKeepItem`
guarantees numeric fields). -/
def cartRepairItem (now : String) (item : Json) : Json :=
  let pid : ℚ := match item.getField "productId" with | some (.num p) => p | _ => 0
  let q : ℚ := match item.getField "quantity" with | some (.num p) => p | _ => 0
  let addedAt : Json := match item.getField "addedAt" with
    | some a => if a.truthy then a else .str now
    | none => .str now
  Json.obj [("productId", .num ((⌊|pid|⌋ : ℤ) : ℚ)),
            ("quantity", .num ((⌊|q|⌋ : ℤ) : ℚ)),
            ("addedAt", addedAt)]

/-- The cart repair function: keep a truthy `timestamp`, filter the `items`
array to positive numeric entries and normalize them. -/
def cartRepair (now : String) (data : Json) : Json :=
  match data with
  | .obj _ | .arr _ =>
    let ts : Json := match data.getField "timestamp" with
      | some v => if v.truthy then v else .str now
      | none => .str now
    let items : List Json := match data.getField "items" with
      | some (.arr xs) => (xs.filter cartKeepItem).map (cartRepairItem now)
      | _ => []
    Json.obj [("items", .arr items), ("timestamp", ts)]
  | _ => Json.obj [("items", .arr []), ("timestamp", .str now)]

/-- The cart fallback value: an empty cart stamped now. -/
def cartFallback (now : String) : Json :=
  Json.obj [("items", .arr []), ("timestamp", .str now)]

/-- Default user preferences. -/
def prefDefaultFields : List (String × Json) :=
  [("theme", .str "light"), ("currency", .str "USD"), ("notifications", .bool true)]

/-- The preferences validator: any truthy object (arrays included). -/
def prefValidate (data : Json) : Bool :=
  match data with
  | .obj _ | .arr _ => true
  | _ => false

/-- The preferences repair function: spread the (object) data over the
defaults; spreading an array contributes index-keyed fields. -/
def prefRepair (data : Json) : Json :=
  match data with
  | .obj fs => Json.obj (prefDefaultFields ++ fs)
  | .arr xs => Json.obj (prefDefaultFields ++ xs.enum.map (fun p => (toString p.1, p.2)))
  | _ => Json.obj prefDefaultFields

/-- `DataRecovery.initializeRecoveryStrategies`: the strategy table. -/
def recoveryStrategies (now : String) (dataType : String) : Option RecoveryStrategy :=
  if dataType = "cart" then
    some { validate := fun d => .ok (cartValidate d),
           repair := fun d => .ok (cartRepair now d),
           fallbackValue := cartFallback now }
  else if dataType = "preferences" then
    some { validate := fun d => .ok (prefValidate d),
           repair := fun d => .ok (prefRepair d),
           fallbackValue := Json.obj prefDefaultFields }
  else none

/-- `DataRecovery.getFallbackData`: the strategy's fallback, or the generic
`null`. -/
def getFallbackDataWith (table : String → Option RecoveryStrategy) (dataType : String) : Json :=
  match table dataType with
  | some strat => strat.fallbackValue
  | none => Json.null

/-! ### Heuristic JSON repair (`DataRecovery.repairMalformedJson`) -/

/-- Global regex replacement modelling `/,(\s*[}\x5d])/g` applied as
`'$1'`: drop a comma directly preceding (up to whitespace) a closing brace
or bracket, resuming the scan after the closer; fuel strictly exceeding the
input length makes the recursion structural. -/
def stripTrailingCommasF : ℕ → List Char → List Char
  | 0, cs => cs
  | _, [] => []
  | fuel + 1, ',' :: rest =>
    (let ws := rest.takeWhile jsTrimWs
     match rest.dropWhile jsTrimWs with
     | c :: rest₂ =>
       if c = '}' || c = ']' then ws ++ c :: stripTrailingCommasF fuel rest₂
       else ',' :: stripTrailingCommasF fuel rest
     | [] => ',' :: stripTrailingCommasF fuel rest)
  | fuel + 1, c :: rest => c :: stripTrailingCommasF fuel rest

/-- Start of a JavaScript identifier (`[a-zA-Z_$]`). -/
def isIdentStart (c : Char) : Bool :=
  ('a' ≤ c && c ≤ 'z') || ('A' ≤ c && c ≤ 'Z') || c = '_' || c = '$'

/-- Continuation of a JavaScript identifier (`[a-zA-Z0-9_$]`). -/
def isIdentCh (c : Char) : Bool := isIdentStart c || isDigitCh c

/-- Global regex replacement modelling
`/([\x7b,]\s*)([a-zA-Z_$][a-zA-Z0-9_$]*)\s*:/g` applied as `'$1"$2":'`:
after an opening brace or comma (and whitespace), wrap a bare
identifier-like key in quotes, dropping the whitespace before the colon. -/
def quoteBareKeysF : ℕ → List Char → List Char
  | 0, cs => cs
  | _, [] => []
  | fuel + 1, c :: rest =>
    if c = '\x7b' || c = ',' then
      let ws := rest.takeWhile jsTrimWs
      let r₁ := rest.dropWhile jsTrimWs
      let ident := r₁.takeWhile isIdentCh
      let r₂ := r₁.dropWhile isIdentCh
      if ident ≠ [] && isIdentStart (ident.headD ' ') then
        match r₂.dropWhile jsTrimWs with
        | ':' :: r₃ =>
          c :: (ws ++ '"' :: (ident ++ '"' :: ':' :: quoteBareKeysF fuel r₃))
        | _ => c :: quoteBareKeysF fuel rest
      else c :: quoteBareKeysF fuel rest
    else c :: quoteBareKeysF fuel rest

/-- `DataRecovery.repairMalformedJson`: trim, append the missing closing
brackets then braces (counting every occurrence, string context included,
as the source does), strip trailing commas, quote bare keys, and strictly
re-parse once — `none` when the single repair pass still fails to parse. -/
def repairMalformedJson (jsonString : String) : Option String :=
  let t := (jsTrim jsonString).toList
  let openBraces := t.count '\x7b'
  let closeBraces := t.count '\x7d'
  let openBrackets := t.count '['
  let closeBrackets := t.count ']'
  let r₁ := t ++ List.replicate (openBrackets - closeBrackets) ']'
              ++ List.replicate (openBraces - closeBraces) '\x7d'
  let r₂ := stripTrailingCommasF (r₁.length + 1) r₁
  let r₃ := quoteBareKeysF (r₂.length + 1) r₂
  let out := String.mk r₃
  if (parseJson out).isSome then some out else none

/-! ### `DataRecovery.recoverData` -/

/-- Result shape of `DataRecovery.recoverData`; the JavaScript `null` the
`data` field is initialized with is `Json.null`. -/
structure RecoveryResult where
  success : Bool
  data : Json
  strategy : String
  errors : List String
deriving Repr

/-- The tail of `recoverData` after a successful parse: structural
validation, then per-kind repair, then fallback; a throwing validator is
absorbed by the outer catch-all, a throwing repair by its dedicated catch.
The engine-specific exception message texts are modelled by fixed strings
(no theorem inspects them). -/
def finishValidation (table : String → Option RecoveryStrategy) (dataType : String)
    (r : RecoveryResult) (parsedData : Json) : RecoveryResult :=
  match table dataType with
  | none =>
    { r with
        errors := r.errors ++ ["No recovery strategy for data type: " ++ dataType]
        data := parsedData
        success := true }
  | some strat =>
    match strat.validate parsedData with
    | .error msg =>
      { r with
          errors := r.errors ++ ["Recovery error: " ++ msg]
          data := getFallbackDataWith table dataType
          strategy := "fallback"
          success := true }
    | .ok true => { r with strategy := "validation-passed", data := parsedData, success := true }
    | .ok false =>
      match strat.repair parsedData with
      | .ok repaired => { r with data := repaired, strategy := "data-repair", success := true }
      | .error msg =>
        { r with
            errors := r.errors ++ ["Data repair failed: " ++ msg]
            data := (match table dataType with
                     | some s => s.fallbackValue
                     | none => Json.null)
            strategy := "fallback"
            success := true }

/-- `DataRecovery.recoverData` over an arbitrary strategy table: missing
key, parse failure with heuristic repair, validation, repair, fallback. -/
def recoverDataWith (table : String → Option RecoveryStrategy) (store : Store)
    (key dataType : String) : RecoveryResult :=
  let base : RecoveryResult := { success := false, data := Json.null, strategy := "none", errors := [] }
  match store.getItem key with
  | none => { base with strategy := "fallback", data := getFallbackDataWith table dataType, success := true }
  | some rawData =>
    match parseJson rawData with
    | some parsedData => finishValidation table dataType base parsedData
    | none =>
      let r₁ := { base with errors := ["JSON parse error: SyntaxError"] }
      match repairMalformedJson rawData with
      | some repairedJson =>
        (match parseJson repairedJson with
         | some parsedData =>
           finishValidation table dataType { r₁ with strategy := "json-repair" } parsedData
         | none =>
           { r₁ with
               errors := r₁.errors ++ ["JSON repair failed: SyntaxError"]
               strategy := "fallback"
               data := getFallbackDataWith table dataType
               success := true })
      | none =>
        { r₁ with strategy := "fallback", data := getFallbackDataWith table dataType, success := true }

/-- `recoverData` with the module's own strategy table. -/
def recoverData (now : String) (store : Store) (key dataType : String) : RecoveryResult :=
  recoverDataWith (recoveryStrategies now) store key dataType

/-! ### Backup Rotator (`DataRecovery.createBackup` and friends) -/

/-- The decimal digit characters. -/
def digitChar : ℕ → Char
  | 0 => '0'
  | 1 => '1'
  | 2 => '2'
  | 3 => '3'
  | 4 => '4'
  | 5 => '5'
  | 6 => '6'
  | 7 => '7'
  | 8 => '8'
  | 9 => '9'
  | _ => '0'

/-- Decimal rendering of a natural number (most significant digit first);
the fuel strictly exceeding the value makes the recursion structural. -/
def natPrintAux : ℕ → ℕ → List Char
  | 0, _ => []
  | fuel + 1, n => if n < 10 then [digitChar n] else natPrintAux fuel (n / 10) ++ [digitChar (n % 10)]

/-- Decimal rendering of a natural number, as JavaScript renders
`Date.now()` in a template literal. -/
def natToString (n : ℕ) : String := String.mk (natPrintAux (n + 1) n)

/-- The derived storage key of a backup record. -/
def mkBackupKey (key : String) (nowMs : ℕ) : String :=
  key ++ "_backup_" ++ natToString nowMs

/-- `String.prototype.split` on a fixed non-empty separator, scanning left
to right over non-overlapping occurrences. -/
def splitGo (sep : List Char) : ℕ → List Char → List Char → List (List Char)
  | 0, acc, cs => [acc.reverse ++ cs]
  | _, acc, [] => [acc.reverse]
  | fuel + 1, acc, c :: rest =>
    if sep.isPrefixOf (c :: rest) then
      acc.reverse :: splitGo sep fuel [] ((c :: rest).drop sep.length)
    else splitGo sep fuel (c :: acc) rest

/-- JavaScript `s.split(sep)` for non-empty `sep`. -/
def jsSplit (s sep : String) : List String :=
  (splitGo sep.toList (s.toList.length + 1) [] s.toList).map String.mk

/-- JavaScript `parseInt` (radix 10): skip whitespace, optional sign,
longest digit lead; `none` models `NaN`. -/
def jsParseIntZ (s : String) : Option ℤ :=
  let cs := s.toList.dropWhile jsTrimWs
  let signed : Bool × List Char := match cs with
    | c :: r => if c = '-' then (true, r) else if c = '+' then (false, r) else (false, c :: r)
    | [] => (false, [])
  let ds := signed.2.takeWhile isDigitCh
  if ds.isEmpty then none
  else
    let n : ℤ := (digitsToNat ds : ℤ)
    some (if signed.1 then -n else n)

/-- The sort key of `cleanupOldBackups`: `parseInt(key.split('_backup_')[1])`,
with the unspecified `NaN` comparison behaviour modelled as `0` (every
theorem below only exercises keys whose stamp parses). -/
def jsSortStamp (k : String) : ℤ :=
  match (jsSplit k "_backup_").get? 1 with
  | some piece => (jsParseIntZ piece).getD 0
  | none => 0

/-- Stable insertion into a sorted list (earlier-listed elements win ties
when `le` holds both ways), modelling the stable `Array.prototype.sort`. -/
def insertOrd {α : Type} (le : α → α → Bool) (x : α) : List α → List α
  | [] => [x]
  | y :: l => if le x y then x :: y :: l else y :: insertOrd le x l

/-- Stable insertion sort. -/
def sortOrd {α : Type} (le : α → α → Bool) : List α → List α
  | [] => []
  | x :: l => insertOrd le x (sortOrd le l)

/-- The descending-by-stamp comparison of `cleanupOldBackups`. -/
def stampGe (a b : String) : Bool := jsSortStamp b ≤ jsSortStamp a

/-- JavaScript `key.startsWith(lead)`, computed on the character lists. -/
def strStartsWith (k lead : String) : Bool :=
  lead.toList.isPrefixOf k.toList

/-- `DataRecovery.cleanupOldBackups`: collect the keys extending
`originalKey ++ "_backup_"`, sort by embedded stamp descending (stable), and
remove every record past the first five. -/
def cleanupOldBackups (originalKey : String) (store : Store) : Store :=
  let bkeys := store.keys.filter (fun k => strStartsWith k (originalKey ++ "_backup_"))
  let sorted := sortOrd stampGe bkeys
  let toRemove := sorted.drop 5
  { store with entries := store.entries.filter (fun e => !(toRemove.contains e.1)) }

/-- `DataRecovery.createBackup`: write the backup record under the derived
key, then prune; a storage failure is caught and swallowed (no write, no
pruning). -/
def createBackup (nowIso : String) (nowMs : ℕ) (key : String) (data : Json)
    (store : Store) : Store :=
  match store.failMode with
  | some _ => store
  | none =>
    let backupData := Json.obj [("originalKey", .str key), ("data", data),
                                ("timestamp", .str nowIso), ("version", .str "1.0")]
    let st₁ : Store := { store with
      entries := setEntry (mkBackupKey key nowMs) (stringifyJson backupData) store.entries }
    cleanupOldBackups key st₁

/-! ### Cart State Manager (`CartModule`)

The manager's observable state: the items map (a JavaScript `Map` in
insertion order, keyed by the raw numeric product id), the session-only
flag, the event log of `_notifyListeners` calls, and the storage.  The
current time enters as explicit parameters: `now` for
`new Date().toISOString()` and `nowMs` for `Date.now()`.  Methods that can
throw return `Except String`; analysis of the source shows every throw
happens before any state mutation, so an `Except.error` leaves the state of
the world unchanged. -/

/-- The whole observable state of a `CartModule` instance plus its store. -/
structure CartWorld where
  items : List (ℚ × CartItem)
  sessionOnly : Bool
  events : List CartEvent
  store : Store
deriving Repr

/-- The primary storage key (`this.storageKey`). -/
def storageKey : String := "shopping-cart-items"

/-- The timestamp storage key (`this.timestampKey`). -/
def timestampKey : String := "shopping-cart-timestamp"

/-- `Map.prototype.get` on the items map. -/
def itemsGet (items : List (ℚ × CartItem)) (k : ℚ) : Option CartItem :=
  (items.find? (fun e => e.1 = k)).map Prod.snd

/-- `Map.prototype.set`: replace in place, or append a new key. -/
def itemsSet (k : ℚ) (v : CartItem) : List (ℚ × CartItem) → List (ℚ × CartItem)
  | [] => [(k, v)]
  | (k', v') :: rest => if k' = k then (k, v) :: rest else (k', v') :: itemsSet k v rest

/-- `Map.prototype.delete`. -/
def itemsDelete (k : ℚ) (items : List (ℚ × CartItem)) : List (ℚ × CartItem) :=
  items.filter (fun e => e.1 ≠ k)

/-- `CartModule._handleStorageError`: classify the error, switch to
session-only mode, notify the matching event. -/
def handleStorageError (kind : StorageFailKind) (w : CartWorld) : CartWorld :=
  match kind with
  | .quota => { w with sessionOnly := true, events := w.events ++ [.storageQuotaExceeded] }
  | .security => { w with sessionOnly := true, events := w.events ++ [.storageAccessDenied] }
  | .generic => { w with sessionOnly := true, events := w.events ++ [.storageGenericError] }

/-- The serialized cart blob `saveToStorage` writes: the items in map order
with their raw fields, plus the save timestamp. -/
def cartBlob (items : List (ℚ × CartItem)) (now : String) : Json :=
  Json.obj [("items", Json.arr (items.map (fun e =>
    Json.obj [("productId", .num e.1), ("quantity", .num e.2.quantity),
              ("addedAt", .str e.2.addedAt)]))),
    ("timestamp", .str now)]

/-- `CartModule.saveToStorage`: a no-op in session-only mode; otherwise back
up the previously stored blob when it parses (`createBackup` swallows its
own failures), then write the serialized items and the timestamp; a storage
failure is caught, degrades the manager via `_handleStorageError`, and never
propagates.  (The graceful-degradation probe is modelled in its
browser-supported state, where it selects `localStorage` itself.)
`backupStep` is the backup branch, split out for proof convenience. -/
def backupStep (now : String) (nowMs : ℕ) (store : Store) : Store :=
  match store.getItem storageKey with
  | some existingData =>
    (match parseJson existingData with
     | some existingCartData => createBackup now nowMs storageKey existingCartData store
     | none => store)
  | none => store

/-- `CartModule.saveToStorage`, continued: see `backupStep` for the backup
branch. -/
def saveToStorage (now : String) (nowMs : ℕ) (w : CartWorld) : CartWorld :=
  if w.sessionOnly then w
  else
    let st₁ : Store := backupStep now nowMs w.store
    match st₁.setItem storageKey (stringifyJson (cartBlob w.items now)) with
    | .error kind => handleStorageError kind { w with store := st₁ }
    | .ok st₂ =>
      match st₂.setItem timestampKey now with
      | .error kind => handleStorageError kind { w with store := st₂ }
      | .ok st₃ => { w with store := st₃ }

/-- `CartModule.addItem`: validate id and quantity through the validator
(present in this repository), no-op on sanitized quantity zero, resolve the
product, then merge into an existing entry (re-validating the summed
quantity before the in-place update) or create a fresh entry; notify
`itemAdded` with the sanitized values and persist.  Every thrown error
precedes any state change. -/
def addItem (now : String) (nowMs : ℕ) (catalog : Catalog) (productId quantity : ℚ)
    (w : CartWorld) : Except String CartWorld :=
  let productIdResult := validateProductId catalog (some (.num productId))
  if !productIdResult.isValid then
    .error ("Invalid product ID: " ++ String.intercalate ", " productIdResult.errors)
  else
    let quantityResult := validateQuantity (some (.num quantity))
    if !quantityResult.isValid then
      .error ("Invalid quantity: " ++ String.intercalate ", " quantityResult.errors)
    else
      let pid := productIdResult.sanitizedValue.getD 0
      let q := quantityResult.sanitizedValue.getD 0
      if q = 0 then .ok w
      else
        match catalog pid with
        | none => .error ("Product with ID " ++ jsNumToString pid ++ " not found")
        | some _ =>
          let step : Except String (List (ℚ × CartItem)) :=
            match itemsGet w.items pid with
            | some existingItem =>
              let newQuantity := existingItem.quantity + q
              let totalQuantityResult := validateQuantity (some (.num newQuantity))
              if !totalQuantityResult.isValid then
                .error ("Total quantity would be invalid: " ++
                  String.intercalate ", " totalQuantityResult.errors)
              else
                (existingItem.updateQuantity newQuantity).map (fun it => itemsSet pid it w.items)
            | none =>
              (CartItem.make pid q now).map (fun it => itemsSet pid it w.items)
          match step with
          | .error msg => .error ("Failed to add item to cart: " ++ msg)
          | .ok items' =>
            .ok (saveToStorage now nowMs
              { w with items := items', events := w.events ++ [.itemAdded pid q] })

/-- `CartModule.removeItem`: only a positive-number check on the id (no
integrality and no catalog check); delete-notify-persist when the entry is
present, silent no-op when absent. -/
def removeItem (now : String) (nowMs : ℕ) (productId : ℚ) (w : CartWorld) :
    Except String CartWorld :=
  if ¬(0 < productId) then .error "Product ID must be a positive number"
  else if (itemsGet w.items productId).isSome then
    .ok (saveToStorage now nowMs
      { w with items := itemsDelete productId w.items,
               events := w.events ++ [.itemRemoved productId] })
  else .ok w

/-- `CartModule.updateQuantity`: validate both inputs, fail when the (sanitized)
id has no entry, delegate to `removeItem` on quantity zero, otherwise update
the entry in place, notify `quantityUpdated`, persist. -/
def updateQuantity (now : String) (nowMs : ℕ) (catalog : Catalog)
    (productId quantity : ℚ) (w : CartWorld) : Except String CartWorld :=
  let productIdResult := validateProductId catalog (some (.num productId))
  if !productIdResult.isValid then
    .error ("Invalid product ID: " ++ String.intercalate ", " productIdResult.errors)
  else
    let quantityResult := validateQuantity (some (.num quantity))
    if !quantityResult.isValid then
      .error ("Invalid quantity: " ++ String.intercalate ", " quantityResult.errors)
    else
      let pid := productIdResult.sanitizedValue.getD 0
      let q := quantityResult.sanitizedValue.getD 0
      match itemsGet w.items pid with
      | none => .error ("Product with ID " ++ jsNumToString pid ++ " not found in cart")
      | some cartItem =>
        if q = 0 then removeItem now nowMs pid w
        else
          match cartItem.updateQuantity q with
          | .error msg => .error ("Failed to update quantity: " ++ msg)
          | .ok it =>
            .ok (saveToStorage now nowMs
              { w with items := itemsSet pid it w.items,
                       events := w.events ++ [.quantityUpdated pid q] })

/-- `CartModule.clearCart`: empty the map; notify and persist only when it
was non-empty. -/
def clearCart (now : String) (nowMs : ℕ) (w : CartWorld) : CartWorld :=
  if w.items.length > 0 then
    saveToStorage now nowMs { w with items := [], events := w.events ++ [.cartCleared] }
  else { w with items := [] }

/-- `CartModule.getCartItems`. -/
def getCartItems (w : CartWorld) : List CartItem := w.items.map Prod.snd

/-- `CartModule.getCartItem`: `null` for non-number input cannot arise here
(ids are numbers in the model); lookup or `null`. -/
def getCartItem (productId : ℚ) (w : CartWorld) : Option CartItem :=
  itemsGet w.items productId

/-- `CartModule.isEmpty`. -/
def cartIsEmpty (w : CartWorld) : Bool := w.items.isEmpty

/-- `CartModule.getCartCount`: the sum of all entries' quantities. -/
def getCartCount (w : CartWorld) : ℚ :=
  w.items.foldl (fun count e => count + e.2.quantity) 0

/-- JavaScript `Math.round` on the rational model: floor of `x + 1/2`
(round half up). -/
def jsRound (x : ℚ) : ℤ := ⌊x + 1/2⌋

/-- `CartModule.getCartTotal`: accumulate `getSubtotal` over the entries
whose product resolves, skipping (via the per-entry catch) entries whose
product is missing or whose subtotal computation throws, then
`Math.round(total * 100) / 100`. -/
def getCartTotal (catalog : Catalog) (w : CartWorld) : ℚ :=
  let total := w.items.foldl (fun total e =>
    match catalog e.1 with
    | some price =>
      (match e.2.getSubtotal price with
       | .ok sub => total + sub
       | .error _ => total)
    | none => total) 0
  ((jsRound (total * 100) : ℚ)) / 100

/-- `CartModule.getStorageInfo` (the shape of the returned object; `lastSaved`
keeps the raw stored timestamp string). -/
structure StorageInfo where
  hasStoredData : Bool
  lastSaved : Option String
  sessionOnly : Bool
  dataSize : ℕ
  storageAvailable : Bool
deriving Repr, DecidableEq

/-- `CartModule.getStorageInfo`: reads are total in the model, so the catch
branch is dead; `storageAvailable` is the `_isStorageAvailable` write probe. -/
def getStorageInfo (w : CartWorld) : StorageInfo :=
  { hasStoredData := (w.store.getItem storageKey).isSome
    lastSaved := w.store.getItem timestampKey
    sessionOnly := w.sessionOnly
    dataSize := ((w.store.getItem storageKey).map (fun d => d.toList.length)).getD 0
    storageAvailable := w.store.failMode.isNone }

/-- `CartModule.clearStorage`: remove both keys (removals are total). -/
def clearStorage (w : CartWorld) : CartWorld :=
  { w with store := (w.store.removeItem storageKey).removeItem timestampKey }

/-- Result shape of `CartModule.validateCart`. -/
structure CartValidationReport where
  isValid : Bool
  issues : List String
  fixedItemCount : ℕ
deriving Repr, DecidableEq

/-- `CartModule.validateCart`: re-validate every entry and its catalog
reference, keep only the valid ones, report the issues. -/
def validateCartRun (catalog : Catalog) (w : CartWorld) : CartWorld × CartValidationReport :=
  let step := w.items.foldl (fun (acc : List (ℚ × CartItem) × List String) e =>
    match e.2.validate with
    | .error msg => (acc.1, acc.2 ++ ["Invalid cart item " ++ jsNumToString e.1 ++ ": " ++ msg])
    | .ok _ =>
      match catalog e.1 with
      | none => (acc.1, acc.2 ++ ["Product " ++ jsNumToString e.1 ++ " no longer exists"])
      | some _ => (acc.1 ++ [e], acc.2)) ([], [])
  ({ w with items := step.1 },
   { isValid := step.2.isEmpty, issues := step.2, fixedItemCount := step.1.length })

/-- The per-item body of the `loadFromStorage` recovery loop: validator
checks on the raw fields, raw catalog lookup (a non-numeric id throws inside
the loop's catch), `CartItem.fromObject`; `none` models a skipped item. -/
def loadOneItem (now : String) (catalog : Catalog) (itemData : Json) :
    Option (ℚ × CartItem) := do
  let productIdResult := validateProductId catalog (itemData.getField "productId")
  let quantityResult := validateQuantity (itemData.getField "quantity")
  if !(productIdResult.isValid && quantityResult.isValid) then none
  else
    match itemData.getField "productId" with
    | some (.num rawPid) =>
      match catalog rawPid with
      | none => none
      | some _ =>
        (match CartItem.fromObject itemData now with
         | .ok it => some (rawPid, it)
         | .error _ => none)
    | _ => none

/-- `CartModule.loadFromStorage` in the environment of this repository: the
data-recovery module is present, `recoverData` always succeeds for the cart
kind with a truthy object carrying an `items` array (see
`recoverData_cart_items_array`), so the legacy direct-parse branch and the
outer catch (backup restore, corrupted-data clearing) are unreachable and
the defensive `Json.arr []` default below is never taken.  Clears the map,
loads each recovered item through the validator and catalog, and re-persists
when any item was skipped. -/
def loadFromStorage (now : String) (nowMs : ℕ) (catalog : Catalog) (w : CartWorld) :
    CartWorld :=
  let r := recoverData now w.store storageKey "cart"
  if r.success && r.data.truthy then
    let xs : List Json := match r.data.getField "items" with
      | some (.arr xs) => xs
      | _ => []
    let loadedItems := xs.filterMap (loadOneItem now catalog)
    let loaded := loadedItems.foldl (fun acc e => itemsSet e.1 e.2 acc) []
    let skippedCount := xs.length - loadedItems.length
    let w₁ : CartWorld := { w with items := loaded }
    if skippedCount > 0 then saveToStorage now nowMs w₁ else w₁
  else w

/-- One public operation of the manager, with its arguments. -/
inductive CartOp where
  | add (productId quantity : ℚ)
  | remove (productId : ℚ)
  | update (productId quantity : ℚ)
  | clear
  | save
  | load
  | reload
  | wipeStorage
  | revalidate
deriving Repr, DecidableEq

/-- Run one operation; for the throwing operations the state at the throw is
the untouched input state (established above), so an error returns `w`. -/
def applyOp (now : String) (nowMs : ℕ) (catalog : Catalog) (op : CartOp)
    (w : CartWorld) : CartWorld :=
  match op with
  | .add pid q => match addItem now nowMs catalog pid q w with
    | .ok w' => w'
    | .error _ => w
  | .remove pid => match removeItem now nowMs pid w with
    | .ok w' => w'
    | .error _ => w
  | .update pid q => match updateQuantity now nowMs catalog pid q w with
    | .ok w' => w'
    | .error _ => w
  | .clear => clearCart now nowMs w
  | .save => saveToStorage now nowMs w
  | .load => loadFromStorage now nowMs catalog w
  | .reload => loadFromStorage now nowMs catalog w
  | .wipeStorage => clearStorage w
  | .revalidate => (validateCartRun catalog w).1

/-! ## Supporting lemmas -/

/-- Sanitizing an integer-valued number is the identity. -/
theorem sanitizeInteger_intCast (n : ℤ) :
    sanitizeInteger (some (.num (n : ℚ))) = some ((n : ℤ) : ℚ) := by
  simp [sanitizeInteger, sanitizeNumber]

/-- The quantity validator on an integer in range. -/
theorem validateQuantity_intCast (n : ℤ) (h0 : 0 ≤ n) (h9 : n ≤ 999) :
    validateQuantity (some (.num (n : ℚ))) =
      { isValid := true, errors := [], sanitizedValue := some ((n : ℤ) : ℚ) } := by
  simp only [validateQuantity, sanitizeInteger_intCast]
  have hfloor : (⌊((n : ℚ))⌋ : ℤ) = n := Int.floor_intCast n
  simp [hfloor]
  refine ⟨h0, by exact_mod_cast h9, by intro h; omega⟩

/-- The product-id validator on an integer that is at least one and resolves
in the catalog. -/
theorem validateProductId_intCast (catalog : Catalog) (n : ℤ) (h1 : 1 ≤ n)
    (hc : (catalog ((n : ℤ) : ℚ)).isSome = true) :
    validateProductId catalog (some (.num (n : ℚ))) =
      { isValid := true, errors := [], sanitizedValue := some ((n : ℤ) : ℚ) } := by
  simp only [validateProductId, sanitizeInteger_intCast]
  have h1q : (1 : ℚ) ≤ ((n : ℤ) : ℚ) := by exact_mod_cast h1
  simp [hc, not_lt.mpr h1q]

/-- `_handleStorageError` leaves the items map alone. -/
theorem handleStorageError_items (k : StorageFailKind) (w : CartWorld) :
    (handleStorageError k w).items = w.items := by
  cases k <;> rfl

/-- `_handleStorageError` leaves the store alone. -/
theorem handleStorageError_store (k : StorageFailKind) (w : CartWorld) :
    (handleStorageError k w).store = w.store := by
  cases k <;> rfl

/-- `_handleStorageError` appends exactly one event. -/
theorem handleStorageError_events (k : StorageFailKind) (w : CartWorld) :
    ∃ e, (handleStorageError k w).events = w.events ++ [e] := by
  cases k <;> exact ⟨_, rfl⟩

/-- `saveToStorage` never changes the items map. -/
theorem saveToStorage_items (now : String) (nowMs : ℕ) (w : CartWorld) :
    (saveToStorage now nowMs w).items = w.items := by
  unfold saveToStorage
  split
  · rfl
  · dsimp only
    split
    · simp [handleStorageError_items]
    · split
      · simp [handleStorageError_items]
      · rfl

/-- `saveToStorage` only ever appends to the event log. -/
theorem saveToStorage_events (now : String) (nowMs : ℕ) (w : CartWorld) :
    ∃ extra, (saveToStorage now nowMs w).events = w.events ++ extra := by
  unfold saveToStorage
  split
  · exact ⟨[], by simp⟩
  · dsimp only
    split
    · obtain ⟨e, he⟩ := handleStorageError_events ‹_› _
      exact ⟨[e], by simpa using he⟩
    · split
      · obtain ⟨e, he⟩ := handleStorageError_events ‹_› _
        exact ⟨[e], by simpa using he⟩
      · exact ⟨[], by simp⟩

/-- `saveToStorage` in session-only mode is the identity: no write happens. -/
theorem saveToStorage_sessionOnly (now : String) (nowMs : ℕ) (w : CartWorld)
    (h : w.sessionOnly = true) : saveToStorage now nowMs w = w := by
  simp [saveToStorage, h]

/-- `saveToStorage` never clears the session-only flag. -/
theorem saveToStorage_sessionOnly_mono (now : String) (nowMs : ℕ) (w : CartWorld)
    (h : w.sessionOnly = true) : (saveToStorage now nowMs w).sessionOnly = true := by
  rw [saveToStorage_sessionOnly now nowMs w h]; exact h

/-- Lookup after an in-place map update at the same key. -/
theorem itemsGet_itemsSet_self (k : ℚ) (v : CartItem) (l : List (ℚ × CartItem)) :
    itemsGet (itemsSet k v l) k = some v := by
  induction l with
  | nil => simp [itemsGet, itemsSet]
  | cons e rest ih =>
    by_cases h : e.1 = k
    · simp [itemsGet, itemsSet, h]
    · simpa [itemsGet, itemsSet, h] using ih

/-! ## Shared concrete fixtures -/

/-- An empty, healthy store. -/
def emptyStore : Store := { entries := [], failMode := none }

/-- A fresh manager over an empty store. -/
def emptyWorld : CartWorld :=
  { items := [], sessionOnly := false, events := [], store := emptyStore }

/-- A one-product catalog: product `1` at unit price `10`. -/
def testCatalog : Catalog := fun pid => if pid = 1 then some 10 else none

/-- A world holding two units of product `1`. -/
def oneItemWorld : CartWorld :=
  { items := [(1, { productId := 1, quantity := 2, addedAt := "T0" })],
    sessionOnly := false, events := [], store := emptyStore }

/-! ## C9 -/

/-- C9: the claim says the integer sanitizer truncates toward zero, so that
`-2.7` sanitizes to `-2`; the code applies `Math.floor`, which rounds toward
negative infinity, so `-2.7` sanitizes to `-3` — contradicting the code's own
"Keep sign, just remove decimals" comment.  The code is the slip
(`code_bug`): this theorem evaluates the embedded sanitizer at the failing
input. -/
theorem c9_integer_sanitizer_floor_not_trunc :
    sanitizeInteger (some (.num (-27/10))) = some (-3) ∧ ((-3 : ℚ)) ≠ (-2 : ℚ) := by
  have h : (⌊(-27/10 : ℚ)⌋ : ℤ) = -3 := by norm_num [Int.floor_eq_iff]
  constructor
  · simp [sanitizeInteger, sanitizeNumber, h]
  · norm_num

/-! ## C10 -/

/-- C10 counterexample: the claim says `removeItem` raises exactly when the
product id is not a positive integer; but the source only checks
`typeof productId !== 'number' || productId <= 0`, so the positive
non-integer `5/2` raises no error (it is a silent no-op), refuting the
"only if" direction at a concrete input. -/
theorem c10_counterexample :
    ((5 : ℚ)/2).den ≠ 1 ∧ (0 < (5 : ℚ)/2) ∧
    removeItem "T1" 0 ((5 : ℚ)/2) emptyWorld = .ok emptyWorld := by
  refine ⟨by norm_num, by norm_num, ?_⟩
  have h : ¬¬(0 < (5 : ℚ)/2) := by norm_num
  simp only [removeItem, h, if_false]
  norm_num [itemsGet, emptyWorld]

/-- C10 amended: `removeItem` raises exactly when the product id is not a
positive number (integrality is not checked); for a positive number it never
raises: when the entry is present it is deleted, `itemRemoved` is notified
and the cart is persisted, and when absent the call is a silent no-op
(state unchanged, no notification, no persistence). -/
theorem c10_removeItem_contract (now : String) (nowMs : ℕ) (productId : ℚ)
    (w : CartWorld) :
    ((∃ msg, removeItem now nowMs productId w = .error msg) ↔ ¬ 0 < productId) ∧
    (0 < productId →
      (itemsGet w.items productId = none → removeItem now nowMs productId w = .ok w) ∧
      ((itemsGet w.items productId).isSome = true →
        ∃ w' extra, removeItem now nowMs productId w = .ok w' ∧
          w'.items = itemsDelete productId w.items ∧
          w'.events = w.events ++ [.itemRemoved productId] ++ extra ∧
          w' = saveToStorage now nowMs
            { w with items := itemsDelete productId w.items,
                     events := w.events ++ [.itemRemoved productId] })) := by
  constructor
  · constructor
    · rintro ⟨msg, hmsg⟩
      by_contra hpos
      simp only [removeItem] at hmsg
      rw [if_neg (not_not.mpr hpos)] at hmsg
      split at hmsg <;> simp_all
    · intro hneg
      exact ⟨"Product ID must be a positive number", by simp [removeItem, hneg]⟩
  · intro hpos
    constructor
    · intro habs
      simp [removeItem, not_not.mpr hpos, habs]
    · intro hpres
      obtain ⟨extra, he⟩ := saveToStorage_events now nowMs
        { w with items := itemsDelete productId w.items,
                 events := w.events ++ [.itemRemoved productId] }
      refine ⟨_, extra, ?_, ?_, ?_, rfl⟩
      · simp only [removeItem]
        rw [if_neg (not_not.mpr hpos)]
        rw [if_pos hpres]
      · rw [saveToStorage_items]
      · rw [he]

/-- C10 amended, witnessed at product id `1` on a cart holding it and on an
empty cart. -/
theorem c10_removeItem_contract_witness :
    (0 : ℚ) < 1 ∧ itemsGet emptyWorld.items 1 = none ∧
    removeItem "T1" 0 (1 : ℚ) emptyWorld = .ok emptyWorld := by
  refine ⟨by norm_num, by rfl, ?_⟩
  exact ((c10_removeItem_contract "T1" 0 1 emptyWorld).2 (by norm_num)).1 (by rfl)

/-! ## C2 -/

/-- C2 counterexample: the claim says `updateQuantity(id, 0)` and
`removeItem(id)` have the same observable outcome even when `id` has no cart
entry; on the empty cart with the resolving id `1`, `updateQuantity` throws
"not found in cart" while `removeItem` succeeds silently. -/
theorem c2_counterexample :
    (∃ msg, updateQuantity "T1" 0 testCatalog 1 0 emptyWorld = .error msg) ∧
    removeItem "T1" 0 (1 : ℚ) emptyWorld = .ok emptyWorld := by
  constructor
  · refine ⟨"Product with ID 1 not found in cart", ?_⟩
    have hpid : validateProductId testCatalog (some (.num ((1 : ℤ) : ℚ))) =
        { isValid := true, errors := [], sanitizedValue := some ((1 : ℤ) : ℚ) } :=
      validateProductId_intCast testCatalog 1 le_rfl (by norm_num [testCatalog])
    have hq : validateQuantity (some (.num ((0 : ℤ) : ℚ))) =
        { isValid := true, errors := [], sanitizedValue := some ((0 : ℤ) : ℚ) } :=
      validateQuantity_intCast 0 le_rfl (by norm_num)
    norm_num at hpid hq
    simp [updateQuantity, hpid, hq, itemsGet, emptyWorld, jsNumToString]
    rfl
  · have h := (c10_removeItem_contract "T1" 0 1 emptyWorld).2 (by norm_num)
    exact h.1 (by rfl)

/-- C2 amended: for a positive integer id that resolves in the catalog and
has an existing cart entry, `updateQuantity(id, 0)` is the same call as
`removeItem(id)` — identical result, state and notifications.  When the id
has no entry the two differ (`updateQuantity` raises, `removeItem` is a
no-op; see the counterexample). -/
theorem c2_update_zero_eq_remove (now : String) (nowMs : ℕ) (catalog : Catalog)
    (n : ℤ) (hn : 1 ≤ n) (hc : (catalog ((n : ℤ) : ℚ)).isSome = true)
    (w : CartWorld) (hin : (itemsGet w.items ((n : ℤ) : ℚ)).isSome = true) :
    updateQuantity now nowMs catalog ((n : ℤ) : ℚ) 0 w =
      removeItem now nowMs ((n : ℤ) : ℚ) w := by
  have hpid := validateProductId_intCast catalog n hn hc
  have hq : validateQuantity (some (.num ((0 : ℤ) : ℚ))) =
      { isValid := true, errors := [], sanitizedValue := some ((0 : ℤ) : ℚ) } :=
    validateQuantity_intCast 0 le_rfl (by norm_num)
  obtain ⟨it, hit⟩ := Option.isSome_iff_exists.mp hin
  simp only [updateQuantity]
  norm_num at hq ⊢
  simp [hpid, hq, hit]

/-- C2 amended, witnessed: on a cart holding product `1`, updating to
quantity zero coincides with removal. -/
theorem c2_update_zero_eq_remove_witness :
    (itemsGet oneItemWorld.items ((1 : ℤ) : ℚ)).isSome = true ∧
    updateQuantity "T1" 0 testCatalog ((1 : ℤ) : ℚ) 0 oneItemWorld =
      removeItem "T1" 0 ((1 : ℤ) : ℚ) oneItemWorld := by
  refine ⟨by rfl, ?_⟩
  exact c2_update_zero_eq_remove "T1" 0 testCatalog 1 le_rfl
    (by norm_num [testCatalog]) oneItemWorld (by rfl)

/-! ## C5 -/

/-- Every branch of the post-parse stage reports success. -/
theorem finishValidation_success (table : String → Option RecoveryStrategy)
    (dataType : String) (r : RecoveryResult) (parsed : Json) :
    (finishValidation table dataType r parsed).success = true := by
  unfold finishValidation
  repeat' split
  all_goals rfl

/-- Every branch of `recoverData` reports success, for any strategy table —
in particular whatever the table's validators and repairers throw. -/
theorem recoverDataWith_success (table : String → Option RecoveryStrategy)
    (store : Store) (key dataType : String) :
    (recoverDataWith table store key dataType).success = true := by
  unfold recoverDataWith
  repeat' split
  all_goals first | rfl | apply finishValidation_success

/-- A value passing the cart validator is an object. -/
theorem cartValidate_obj (d : Json) (h : cartValidate d = true) : ∃ fs, d = .obj fs := by
  cases d <;> simp_all [cartValidate, Json.getField]

/-- The cart repair function always produces an object. -/
theorem cartRepair_ne_null (now : String) (d : Json) : cartRepair now d ≠ Json.null := by
  cases d <;> simp [cartRepair]

/-- A value passing the preferences validator is not null. -/
theorem prefValidate_ne_null (d : Json) (h : prefValidate d = true) : d ≠ Json.null := by
  cases d <;> simp_all [prefValidate]

/-- The preferences repair function always produces an object. -/
theorem prefRepair_ne_null (d : Json) : prefRepair d ≠ Json.null := by
  cases d <;> simp [prefRepair]

/-- The post-parse stage for the cart kind never produces null data. -/
theorem finishValidation_cart_ne_null (now : String) (r : RecoveryResult) (parsed : Json) :
    (finishValidation (recoveryStrategies now) "cart" r parsed).data ≠ Json.null := by
  unfold finishValidation
  rw [show recoveryStrategies now "cart" =
    some { validate := fun d => .ok (cartValidate d),
           repair := fun d => .ok (cartRepair now d),
           fallbackValue := cartFallback now } from rfl]
  cases hb : cartValidate parsed
  · simp [hb, cartRepair_ne_null]
  · obtain ⟨fs, rfl⟩ := cartValidate_obj parsed hb
    simp [hb]

/-- The post-parse stage for the preferences kind never produces null data. -/
theorem finishValidation_pref_ne_null (now : String) (r : RecoveryResult) (parsed : Json) :
    (finishValidation (recoveryStrategies now) "preferences" r parsed).data ≠ Json.null := by
  unfold finishValidation
  rw [show recoveryStrategies now "preferences" =
    some { validate := fun d => .ok (prefValidate d),
           repair := fun d => .ok (prefRepair d),
           fallbackValue := Json.obj prefDefaultFields } from rfl]
  cases hb : prefValidate parsed
  · simp [hb, prefRepair_ne_null]
  · have := prefValidate_ne_null parsed hb
    simp [hb, this]

/-- C5: for every store contents and key, and each supported data kind
(`cart` and `preferences`), `recoverData` reports success with non-null
data — corrupted, missing and unparseable contents included; the
`Except`-typed strategy steps show throwing internals are absorbed
(`recoverDataWith_success` holds for arbitrary tables). -/
theorem c5_recovery_always_succeeds (now : String) (store : Store) (key dataType : String)
    (h : dataType = "cart" ∨ dataType = "preferences") :
    (recoverData now store key dataType).success = true ∧
    (recoverData now store key dataType).data ≠ Json.null := by
  refine ⟨recoverDataWith_success _ _ _ _, ?_⟩
  have hfb : getFallbackDataWith (recoveryStrategies now) dataType ≠ Json.null := by
    rcases h with h | h <;> subst h <;> simp [getFallbackDataWith, recoveryStrategies,
      cartFallback, prefDefaultFields]
  have hfin : ∀ r parsed,
      (finishValidation (recoveryStrategies now) dataType r parsed).data ≠ Json.null := by
    rcases h with h | h <;> subst h
    · exact finishValidation_cart_ne_null now
    · exact finishValidation_pref_ne_null now
  unfold recoverData recoverDataWith
  split
  · simpa using hfb
  · split
    · apply hfin
    · split
      · split
        · apply hfin
        · simpa using hfb
      · simpa using hfb

/-- C5, witnessed at the cart kind over the empty store. -/
theorem c5_recovery_always_succeeds_witness :
    ("cart" = "cart" ∨ "cart" = "preferences") ∧
    (recoverData "T1" emptyStore "missing-key" "cart").success = true ∧
    (recoverData "T1" emptyStore "missing-key" "cart").data ≠ Json.null :=
  ⟨Or.inl rfl, c5_recovery_always_succeeds "T1" emptyStore "missing-key" "cart" (Or.inl rfl)⟩

/-! ## C6 -/

/-- Specification-side contribution of one cart entry: quantity times unit
price when the product resolves, nothing when it does not. -/
def entrySubtotal (catalog : Catalog) (e : ℚ × CartItem) : ℚ :=
  match catalog e.1 with
  | some price => e.2.quantity * price
  | none => 0

/-- Specification-side total before rounding: the sum over entries whose
product currently resolves of quantity times unit price. -/
def resolvedSubtotalSum (catalog : Catalog) (items : List (ℚ × CartItem)) : ℚ :=
  (items.map (entrySubtotal catalog)).sum

/-- Specification-side rounding to two decimals. -/
def round2 (x : ℚ) : ℚ := ((⌊x * 100 + 1/2⌋ : ℤ) : ℚ) / 100

/-- `round2` is round-half-up on the cent boundary: the result is the
multiple `n/100` whose numerator satisfies `n - 1/2 ≤ 100·x < n + 1/2`
(so a value exactly between two cents rounds to the upper one). -/
theorem round2_half_up (x : ℚ) :
    ∃ n : ℤ, round2 x = (n : ℚ)/100 ∧ (n : ℚ) - 1/2 ≤ x * 100 ∧ x * 100 < (n : ℚ) + 1/2 := by
  refine ⟨⌊x * 100 + 1/2⌋, rfl, ?_, ?_⟩
  · have := Int.floor_le (x * 100 + 1/2)
    linarith
  · have := Int.lt_floor_add_one (x * 100 + 1/2)
    linarith

/-- The accumulation loop of `getCartTotal`, related to the
specification-side sum under non-negative catalog prices. -/
theorem getCartTotal_fold (catalog : Catalog)
    (hp : ∀ pid price, catalog pid = some price → 0 ≤ price)
    (l : List (ℚ × CartItem)) (a : ℚ) :
    l.foldl (fun total e =>
      match catalog e.1 with
      | some price =>
        (match e.2.getSubtotal price with
         | .ok sub => total + sub
         | .error _ => total)
      | none => total) a = a + resolvedSubtotalSum catalog l := by
  induction l generalizing a with
  | nil => simp [resolvedSubtotalSum]
  | cons e rest ih =>
    rw [List.foldl_cons, ih]
    simp only [resolvedSubtotalSum, List.map_cons, List.sum_cons]
    rcases hcat : catalog e.1 with _ | price
    · simp [entrySubtotal, hcat]
    · have hpr : ¬ price < 0 := not_lt.mpr (hp _ _ hcat)
      simp [entrySubtotal, hcat, CartItem.getSubtotal, hpr]
      ring

/-- C6: for every cart state and catalog with non-negative unit prices,
`getCartTotal` is the specification-side sum over resolving entries of
quantity times price, rounded half-up on the cent boundary
(`round2_half_up`); entries whose product does not resolve are skipped
without error. -/
theorem c6_getCartTotal_rounds_sum (catalog : Catalog) (w : CartWorld)
    (hp : ∀ pid price, catalog pid = some price → 0 ≤ price) :
    getCartTotal catalog w = round2 (resolvedSubtotalSum catalog w.items) := by
  unfold getCartTotal round2 jsRound
  rw [getCartTotal_fold catalog hp w.items 0]
  norm_num

/-- The C6 witness catalog: product `1` at `59.99`, nothing else. -/
def priceCatalog : Catalog := fun pid => if pid = 1 then some (5999/100) else none

/-- The C6 witness world: three units of product `1` plus an entry whose
product no longer resolves. -/
def twoEntryWorld : CartWorld :=
  { items := [(1, { productId := 1, quantity := 3, addedAt := "T0" }),
              (2, { productId := 2, quantity := 1, addedAt := "T0" })],
    sessionOnly := false, events := [], store := emptyStore }

/-- C6, witnessed: the dangling entry is skipped and the total is
`round2(3 × 59.99) = 179.97`. -/
theorem c6_getCartTotal_rounds_sum_witness :
    (∀ pid price, priceCatalog pid = some price → 0 ≤ price) ∧
    getCartTotal priceCatalog twoEntryWorld =
      round2 (resolvedSubtotalSum priceCatalog twoEntryWorld.items) ∧
    getCartTotal priceCatalog twoEntryWorld = 17997/100 := by
  have hp : ∀ pid price, priceCatalog pid = some price → 0 ≤ price := by
    intro pid price h
    by_cases h1 : pid = 1 <;> simp [priceCatalog, h1] at h
    rw [← h]; norm_num
  refine ⟨hp, c6_getCartTotal_rounds_sum priceCatalog twoEntryWorld hp, ?_⟩
  rw [c6_getCartTotal_rounds_sum priceCatalog twoEntryWorld hp]
  have hsum : resolvedSubtotalSum priceCatalog twoEntryWorld.items = 17997/100 := by
    simp [resolvedSubtotalSum, twoEntryWorld, entrySubtotal, priceCatalog]
    norm_num
  rw [hsum]
  unfold round2
  norm_num [Int.floor_eq_iff]

/-! ## C1 -/

/-- A sequence of `addItem` calls for one product id (stopping at the first
thrown error, matching a caller that lets an exception propagate). -/
def addSeq (now : String) (nowMs : ℕ) (catalog : Catalog) (productId : ℚ)
    (qs : List ℚ) (w : CartWorld) : Except String CartWorld :=
  qs.foldlM (fun w q => addItem now nowMs catalog productId q w) w

/-- `addItem` on an id with no existing entry creates the entry with the
current timestamp, notifies, persists. -/
theorem addItem_create (now : String) (nowMs : ℕ) (catalog : Catalog)
    (p : ℤ) (hp : 1 ≤ p) (hc : (catalog ((p : ℤ) : ℚ)).isSome = true)
    (q : ℤ) (h1 : 1 ≤ q) (h9 : q ≤ 999)
    (w : CartWorld) (habs : itemsGet w.items ((p : ℤ) : ℚ) = none) :
    addItem now nowMs catalog ((p : ℤ) : ℚ) ((q : ℤ) : ℚ) w =
      .ok (saveToStorage now nowMs
        { w with
            items := itemsSet ((p : ℤ) : ℚ)
              { productId := ((p : ℤ) : ℚ), quantity := ((q : ℤ) : ℚ), addedAt := now } w.items
            events := w.events ++ [.itemAdded ((p : ℤ) : ℚ) ((q : ℤ) : ℚ)] }) := by
  have hpid := validateProductId_intCast catalog p hp hc
  have hq := validateQuantity_intCast q (by omega) h9
  obtain ⟨price, hprice⟩ := Option.isSome_iff_exists.mp hc
  have hqne : ¬ (((q : ℤ) : ℚ) = 0) := by
    rw [Int.cast_eq_zero]; omega
  have hpne : ¬ (((p : ℤ) : ℚ) = 0) := by
    rw [Int.cast_eq_zero]; omega
  have hq0 : (0 : ℚ) ≤ ((q : ℤ) : ℚ) := by exact_mod_cast (by omega : (0 : ℤ) ≤ q)
  have hcondm : (((q : ℤ) : ℚ).den = 1 ∧ (0 : ℚ) ≤ ((q : ℤ) : ℚ)) := ⟨Rat.den_intCast _, hq0⟩
  have hmake : CartItem.make ((p : ℤ) : ℚ) ((q : ℤ) : ℚ) now =
      .ok { productId := ((p : ℤ) : ℚ), quantity := ((q : ℤ) : ℚ), addedAt := now } := by
    unfold CartItem.make CartItem.validate
    dsimp only
    rw [if_neg hpne, if_neg (not_not.mpr hcondm)]
    rfl
  simp [addItem, hpid, hq, hqne, hprice, habs, hmake, Except.map]

/-- `addItem` on an id with an existing integer-quantity entry re-validates
the summed quantity and mutates the entry in place. -/
theorem addItem_merge (now : String) (nowMs : ℕ) (catalog : Catalog)
    (p : ℤ) (hp : 1 ≤ p) (hc : (catalog ((p : ℤ) : ℚ)).isSome = true)
    (q : ℤ) (h1 : 1 ≤ q) (h9 : q ≤ 999)
    (w : CartWorld) (it : CartItem) (s : ℤ)
    (hit : itemsGet w.items ((p : ℤ) : ℚ) = some it)
    (hqu : it.quantity = ((s : ℤ) : ℚ)) (hs0 : 0 ≤ s) (hsum : s + q ≤ 999) :
    addItem now nowMs catalog ((p : ℤ) : ℚ) ((q : ℤ) : ℚ) w =
      .ok (saveToStorage now nowMs
        { w with
            items := itemsSet ((p : ℤ) : ℚ)
              { it with quantity := ((s + q : ℤ) : ℚ) } w.items
            events := w.events ++ [.itemAdded ((p : ℤ) : ℚ) ((q : ℤ) : ℚ)] }) := by
  have hpid := validateProductId_intCast catalog p hp hc
  have hq := validateQuantity_intCast q (by omega) h9
  obtain ⟨price, hprice⟩ := Option.isSome_iff_exists.mp hc
  have hqne : ¬ (((q : ℤ) : ℚ) = 0) := by
    rw [Int.cast_eq_zero]; omega
  have htot : validateQuantity (some (.num (((s : ℤ) : ℚ) + ((q : ℤ) : ℚ)))) =
      { isValid := true, errors := [],
        sanitizedValue := some (((s : ℤ) : ℚ) + ((q : ℤ) : ℚ)) } := by
    have h := validateQuantity_intCast (s + q) (by omega) hsum
    push_cast at h
    exact h
  have hsq0 : (0 : ℚ) ≤ ((s : ℤ) : ℚ) + ((q : ℤ) : ℚ) := by
    have h : (0 : ℚ) ≤ ((s + q : ℤ) : ℚ) := by
      exact_mod_cast (by omega : (0 : ℤ) ≤ s + q)
    push_cast at h
    exact h
  have hconds : ((((s : ℤ) : ℚ) + ((q : ℤ) : ℚ)).den = 1 ∧
      (0 : ℚ) ≤ ((s : ℤ) : ℚ) + ((q : ℤ) : ℚ)) := by
    refine ⟨?_, hsq0⟩
    have h : (((s + q : ℤ) : ℚ)).den = 1 := Rat.den_intCast _
    push_cast at h
    exact h
  have hupd : it.updateQuantity (((s : ℤ) : ℚ) + ((q : ℤ) : ℚ)) =
      .ok { it with quantity := ((s : ℤ) : ℚ) + ((q : ℤ) : ℚ) } := by
    unfold CartItem.updateQuantity
    rw [if_neg (not_not.mpr hconds)]
  simp [addItem, hpid, hq, hqne, hprice, hit, hqu, htot, hupd, Except.map]

/-- The merge invariant of an `addItem` sequence over an existing entry. -/
theorem addSeq_merge_invariant (now : String) (nowMs : ℕ) (catalog : Catalog)
    (p : ℤ) (hp : 1 ≤ p) (hc : (catalog ((p : ℤ) : ℚ)).isSome = true)
    (qs : List ℤ) (hq : ∀ x ∈ qs, 1 ≤ x ∧ x ≤ 999) :
    ∀ (s : ℤ) (w : CartWorld) (it : CartItem), 0 ≤ s → s + qs.sum ≤ 999 →
      itemsGet w.items ((p : ℤ) : ℚ) = some it → it.quantity = ((s : ℤ) : ℚ) →
      ∃ w' it', addSeq now nowMs catalog ((p : ℤ) : ℚ) (qs.map (fun x => ((x : ℤ) : ℚ))) w = .ok w' ∧
        itemsGet w'.items ((p : ℤ) : ℚ) = some it' ∧
        it'.quantity = ((s + qs.sum : ℤ) : ℚ) ∧
        it'.addedAt = it.addedAt ∧ it'.productId = it.productId := by
  induction qs with
  | nil =>
    intro s w it hs0 hsum hit hqu
    exact ⟨w, it, rfl, hit, by simpa using hqu, rfl, rfl⟩
  | cons x rest ih =>
    intro s w it hs0 hsum hit hqu
    obtain ⟨hx1, hx9⟩ := hq x (List.mem_cons_self x rest)
    have hrest : ∀ y ∈ rest, 1 ≤ y ∧ y ≤ 999 := fun y hy => hq y (List.mem_cons_of_mem x hy)
    have hrestsum : 0 ≤ rest.sum := List.sum_nonneg (fun y hy => by have := hrest y hy; omega)
    have hsx : s + x ≤ 999 := by
      have : rest.sum + x + s = s + (x :: rest).sum := by simp [List.sum_cons]; ring
      omega
    have hstep := addItem_merge now nowMs catalog p hp hc x hx1 hx9 w it s hit hqu hs0 hsx
    set w₁ := saveToStorage now nowMs
      { w with
          items := itemsSet ((p : ℤ) : ℚ) { it with quantity := ((s + x : ℤ) : ℚ) } w.items
          events := w.events ++ [.itemAdded ((p : ℤ) : ℚ) ((x : ℤ) : ℚ)] } with hw₁
    have hit₁ : itemsGet w₁.items ((p : ℤ) : ℚ) =
        some { it with quantity := ((s + x : ℤ) : ℚ) } := by
      rw [hw₁, saveToStorage_items]
      exact itemsGet_itemsSet_self _ _ _
    have hsum₁ : (s + x) + rest.sum ≤ 999 := by
      have : s + (x :: rest).sum = s + x + rest.sum := by simp [List.sum_cons]; ring
      omega
    obtain ⟨w', it', hseq, hget, hquant, haddedAt, hpidkeep⟩ :=
      ih hrest (s + x) w₁ { it with quantity := ((s + x : ℤ) : ℚ) } (by omega) hsum₁ hit₁ rfl
    refine ⟨w', it', ?_, hget, ?_, haddedAt, hpidkeep⟩
    · simp only [addSeq, List.map_cons, List.foldlM_cons, hstep]
      simpa [addSeq, hw₁] using hseq
    · rw [hquant]
      congr 1
      simp [List.sum_cons]
      ring

/-- C1: starting from a cart with no entry for a resolving product id, a
non-empty sequence of `addItem` calls with valid positive integer quantities
whose sum stays in range leaves exactly one entry for the id, whose quantity
is the sum of all quantities added; the entry is created by the first add
(its timestamp is that creation time) and later adds mutate it in place
after re-validating the summed quantity. -/
theorem c1_addItem_accumulates (now : String) (nowMs : ℕ) (catalog : Catalog)
    (p : ℤ) (hp : 1 ≤ p) (hc : (catalog ((p : ℤ) : ℚ)).isSome = true)
    (qs : List ℤ) (hne : qs ≠ []) (hq : ∀ x ∈ qs, 1 ≤ x ∧ x ≤ 999)
    (hsum : qs.sum ≤ 999)
    (w : CartWorld) (habs : itemsGet w.items ((p : ℤ) : ℚ) = none) :
    ∃ w' it, addSeq now nowMs catalog ((p : ℤ) : ℚ) (qs.map (fun x => ((x : ℤ) : ℚ))) w = .ok w' ∧
      getCartItem ((p : ℤ) : ℚ) w' = some it ∧
      it.quantity = ((qs.sum : ℤ) : ℚ) ∧ it.addedAt = now ∧ it.productId = ((p : ℤ) : ℚ) := by
  cases qs with
  | nil => exact absurd rfl hne
  | cons x rest =>
    obtain ⟨hx1, hx9⟩ := hq x (List.mem_cons_self x rest)
    have hrest : ∀ y ∈ rest, 1 ≤ y ∧ y ≤ 999 := fun y hy => hq y (List.mem_cons_of_mem x hy)
    have hstep := addItem_create now nowMs catalog p hp hc x hx1 hx9 w habs
    set w₁ := saveToStorage now nowMs
      { w with
          items := itemsSet ((p : ℤ) : ℚ)
            { productId := ((p : ℤ) : ℚ), quantity := ((x : ℤ) : ℚ), addedAt := now } w.items
          events := w.events ++ [.itemAdded ((p : ℤ) : ℚ) ((x : ℤ) : ℚ)] } with hw₁
    have hit₁ : itemsGet w₁.items ((p : ℤ) : ℚ) =
        some { productId := ((p : ℤ) : ℚ), quantity := ((x : ℤ) : ℚ), addedAt := now } := by
      rw [hw₁, saveToStorage_items]
      exact itemsGet_itemsSet_self _ _ _
    have hsum₁ : x + rest.sum ≤ 999 := by
      have : (x :: rest).sum = x + rest.sum := by simp [List.sum_cons]
      omega
    obtain ⟨w', it', hseq, hget, hquant, haddedAt, hpidkeep⟩ :=
      addSeq_merge_invariant now nowMs catalog p hp hc rest hrest x w₁
        { productId := ((p : ℤ) : ℚ), quantity := ((x : ℤ) : ℚ), addedAt := now }
        (by omega) hsum₁ hit₁ rfl
    refine ⟨w', it', ?_, hget, ?_, haddedAt, hpidkeep⟩
    · simp only [addSeq, List.map_cons, List.foldlM_cons, hstep]
      simpa [addSeq, hw₁] using hseq
    · rw [hquant]
      all_goals simp [List.sum_cons]

/-- C1, witnessed by the spec scenario `addItem(1,2)` then `addItem(1,3)`
from the empty cart: the entry's quantity is `5`. -/
theorem c1_addItem_accumulates_witness :
    (testCatalog ((1 : ℤ) : ℚ)).isSome = true ∧
    itemsGet emptyWorld.items ((1 : ℤ) : ℚ) = none ∧
    (∃ w' it, addSeq "T1" 0 testCatalog ((1 : ℤ) : ℚ)
        ([2, 3].map (fun x => ((x : ℤ) : ℚ))) emptyWorld = .ok w' ∧
      getCartItem ((1 : ℤ) : ℚ) w' = some it ∧
      it.quantity = (((2 + 3 : ℤ) : ℤ) : ℚ) ∧ it.addedAt = "T1" ∧ it.productId = ((1 : ℤ) : ℚ)) := by
  have hc : (testCatalog ((1 : ℤ) : ℚ)).isSome = true := by norm_num [testCatalog]
  refine ⟨hc, rfl, ?_⟩
  have h := c1_addItem_accumulates "T1" 0 testCatalog 1 le_rfl hc [2, 3]
    (by simp) (by decide) (by decide) emptyWorld rfl
  simpa using h

/-! ## C3 -/

/-- Claim-side filter predicate: the stored entry's `productId` and
`quantity` are both numbers greater than zero. -/
def posNumEntry (item : Json) : Bool :=
  (match item.getField "productId" with | some (.num p) => decide (0 < p) | _ => false) &&
  (match item.getField "quantity" with | some (.num q) => decide (0 < q) | _ => false)

/-- The source's repair filter coincides with the claim-side predicate (the
extra truthiness check is subsumed: a value with a field is an object, hence
truthy). -/
theorem cartKeepItem_eq_posNumEntry : cartKeepItem = posNumEntry := by
  funext item
  cases item <;> simp [cartKeepItem, posNumEntry, Json.truthy, Json.getField]

/-- The `items` array of a repaired cart object: the filtered, normalized
stored entries. -/
theorem cartRepair_items (now : String) (fs : List (String × Json)) (xs : List Json)
    (h : (Json.obj fs).getField "items" = some (.arr xs)) :
    (cartRepair now (Json.obj fs)).getField "items" =
      some (.arr ((xs.filter cartKeepItem).map (cartRepairItem now))) := by
  unfold cartRepair
  dsimp only
  rw [h]
  simp [Json.getField]

/-- C3: a stored blob that parses as an object with an `items` array but
fails the cart structural validator is recovered with `success: true` and
strategy `data-repair`, and the repaired `items` array consists exactly of
the (normalized) stored entries whose `productId` and `quantity` are both
numbers greater than zero. -/
theorem c3_data_repair_filters (now : String) (store : Store) (key raw : String)
    (fs : List (String × Json)) (xs : List Json)
    (hget : store.getItem key = some raw)
    (hparse : parseJson raw = some (Json.obj fs))
    (hitems : (Json.obj fs).getField "items" = some (.arr xs))
    (hinvalid : cartValidate (Json.obj fs) = false) :
    (recoverData now store key "cart").success = true ∧
    (recoverData now store key "cart").strategy = "data-repair" ∧
    (recoverData now store key "cart").data.getField "items" =
      some (.arr ((xs.filter posNumEntry).map (cartRepairItem now))) := by
  have hdata : recoverData now store key "cart" =
      finishValidation (recoveryStrategies now) "cart"
        { success := false, data := Json.null, strategy := "none", errors := [] }
        (Json.obj fs) := by
    unfold recoverData recoverDataWith
    rw [hget]
    simp only [hparse]
  have hfin : finishValidation (recoveryStrategies now) "cart"
        { success := false, data := Json.null, strategy := "none", errors := [] }
        (Json.obj fs) =
      { success := true, data := cartRepair now (Json.obj fs), strategy := "data-repair",
        errors := [] } := by
    unfold finishValidation
    rw [show recoveryStrategies now "cart" =
      some { validate := fun d => .ok (cartValidate d),
             repair := fun d => .ok (cartRepair now d),
             fallbackValue := cartFallback now } from rfl]
    simp [hinvalid]
  rw [hdata, hfin]
  refine ⟨rfl, rfl, ?_⟩
  rw [← cartKeepItem_eq_posNumEntry]
  exact cartRepair_items now fs xs hitems

/-- The C3 example blob of the spec. -/
def invalidItemsBlob : String :=
  "\x7b\"items\":[\x7b\"productId\":-1,\"quantity\":-5\x7d]\x7d"

/-- A store holding the C3 example blob under the cart key. -/
def invalidItemsStore : Store :=
  { entries := [(storageKey, invalidItemsBlob)], failMode := none }

/-- The fields of the parsed form of the C3 example blob. -/
def invalidItemsFields : List (String × Json) :=
  [("items", Json.arr
    [Json.obj [("productId", Json.num (-1)), ("quantity", Json.num (-5))]])]

/-- C3, witnessed on the spec's example blob: the negative entry is filtered
out, so the recovered cart has zero items. -/
theorem c3_data_repair_filters_witness :
    invalidItemsStore.getItem storageKey = some invalidItemsBlob ∧
    parseJson invalidItemsBlob = some (Json.obj invalidItemsFields) ∧
    cartValidate (Json.obj invalidItemsFields) = false ∧
    (recoverData "T1" invalidItemsStore storageKey "cart").success = true ∧
    (recoverData "T1" invalidItemsStore storageKey "cart").strategy = "data-repair" ∧
    (recoverData "T1" invalidItemsStore storageKey "cart").data.getField "items" =
      some (Json.arr []) := by
  obtain ⟨h1, h2, h3⟩ := c3_data_repair_filters "T1" invalidItemsStore storageKey
    invalidItemsBlob invalidItemsFields
    [Json.obj [("productId", Json.num (-1)), ("quantity", Json.num (-5))]]
    rfl rfl rfl rfl
  exact ⟨rfl, rfl, rfl, h1, h2, h3⟩

/-! ## C4 -/

/-- The C4 example: the spec blob with its final closing brace missing. -/
def truncatedBlob : String :=
  "\x7b\"items\":[\x7b\"productId\":1,\"quantity\":2\x7d"

/-- The repaired form of `truncatedBlob`. -/
def repairedBlob : String :=
  "\x7b\"items\":[\x7b\"productId\":1,\"quantity\":2\x7d]\x7d"

/-- A store holding the truncated blob under the cart key. -/
def truncatedStore : Store :=
  { entries := [(storageKey, truncatedBlob)], failMode := none }

/-- C4 counterexample: the truncated example blob fails strict parsing and
its heuristic repair parses, yet `recoverData` for the cart kind does not
report strategy `json-repair` — the later validation stage overwrites the
field with `validation-passed`. -/
theorem c4_counterexample :
    parseJson truncatedBlob = none ∧
    repairMalformedJson truncatedBlob = some repairedBlob ∧
    (parseJson repairedBlob).isSome = true ∧
    (recoverData "T1" truncatedStore storageKey "cart").strategy = "validation-passed" ∧
    (recoverData "T1" truncatedStore storageKey "cart").strategy ≠ "json-repair" := by
  have hs : (recoverData "T1" truncatedStore storageKey "cart").strategy =
      "validation-passed" := rfl
  refine ⟨rfl, rfl, rfl, hs, ?_⟩
  rw [hs]
  decide

/-- C4 amended: when the stored text fails strict parsing but its heuristic
repair parses, `recoverData` returns the repaired value successfully, but
the reported strategy is the validation stage's: `validation-passed` when
the repaired value passes the cart validator (as in the example, which
yields one entry). -/
theorem c4_json_repair_then_validation (now : String) (store : Store)
    (key raw repaired : String) (v : Json)
    (hget : store.getItem key = some raw)
    (hfail : parseJson raw = none)
    (hrep : repairMalformedJson raw = some repaired)
    (hparse : parseJson repaired = some v)
    (hvalid : cartValidate v = true) :
    (recoverData now store key "cart").success = true ∧
    (recoverData now store key "cart").data = v ∧
    (recoverData now store key "cart").strategy = "validation-passed" := by
  have hdata : recoverData now store key "cart" =
      finishValidation (recoveryStrategies now) "cart"
        { success := false, data := Json.null, strategy := "json-repair",
          errors := ["JSON parse error: SyntaxError"] } v := by
    unfold recoverData recoverDataWith
    rw [hget]
    simp only [hfail, hrep, hparse]
  rw [hdata]
  unfold finishValidation
  rw [show recoveryStrategies now "cart" =
    some { validate := fun d => .ok (cartValidate d),
           repair := fun d => .ok (cartRepair now d),
           fallbackValue := cartFallback now } from rfl]
  simp [hvalid]

/-- C4 amended, witnessed on the truncated example blob: the repaired text
parses to one entry and the result reports `validation-passed`. -/
theorem c4_json_repair_then_validation_witness :
    truncatedStore.getItem storageKey = some truncatedBlob ∧
    parseJson truncatedBlob = none ∧
    repairMalformedJson truncatedBlob = some repairedBlob ∧
    (recoverData "T1" truncatedStore storageKey "cart").success = true ∧
    (recoverData "T1" truncatedStore storageKey "cart").data =
      Json.obj [("items", Json.arr
        [Json.obj [("productId", Json.num 1), ("quantity", Json.num 2)]])] ∧
    (recoverData "T1" truncatedStore storageKey "cart").strategy = "validation-passed" := by
  obtain ⟨h1, h2, h3⟩ := c4_json_repair_then_validation "T1" truncatedStore storageKey
    truncatedBlob repairedBlob
    (Json.obj [("items", Json.arr
      [Json.obj [("productId", Json.num 1), ("quantity", Json.num 2)]])])
    rfl rfl rfl rfl rfl
  exact ⟨rfl, rfl, rfl, h1, h2, h3⟩

/-! ## C7 -/

/-- An `addItem` success out of a session-only state stays session-only. -/
theorem addItem_sessionOnly_mono (now : String) (nowMs : ℕ) (catalog : Catalog)
    (pid q : ℚ) (w : CartWorld) (hw : w.sessionOnly = true) :
    ∀ w', addItem now nowMs catalog pid q w = .ok w' → w'.sessionOnly = true := by
  intro w' h
  unfold addItem at h
  try dsimp only at h
  repeat' split at h
  all_goals first
    | (injection h with h'
       rw [← h']
       first
       | exact saveToStorage_sessionOnly_mono _ _ _ (by simp [hw])
       | simpa using hw)
    | simp_all

/-- A `removeItem` success out of a session-only state stays session-only. -/
theorem removeItem_sessionOnly_mono (now : String) (nowMs : ℕ) (pid : ℚ)
    (w : CartWorld) (hw : w.sessionOnly = true) :
    ∀ w', removeItem now nowMs pid w = .ok w' → w'.sessionOnly = true := by
  intro w' h
  unfold removeItem at h
  try dsimp only at h
  repeat' split at h
  all_goals first
    | (injection h with h'
       rw [← h']
       first
       | exact saveToStorage_sessionOnly_mono _ _ _ (by simp [hw])
       | simpa using hw)
    | simp_all

/-- An `updateQuantity` success out of a session-only state stays
session-only. -/
theorem updateQuantity_sessionOnly_mono (now : String) (nowMs : ℕ) (catalog : Catalog)
    (pid q : ℚ) (w : CartWorld) (hw : w.sessionOnly = true) :
    ∀ w', updateQuantity now nowMs catalog pid q w = .ok w' → w'.sessionOnly = true := by
  intro w' h
  unfold updateQuantity at h
  try dsimp only at h
  repeat' split at h
  all_goals first
    | exact removeItem_sessionOnly_mono now nowMs _ w hw w' h
    | (injection h with h'
       rw [← h']
       first
       | exact saveToStorage_sessionOnly_mono _ _ _ (by simp [hw])
       | simpa using hw)
    | simp_all

/-- `clearCart` out of a session-only state stays session-only. -/
theorem clearCart_sessionOnly_mono (now : String) (nowMs : ℕ)
    (w : CartWorld) (hw : w.sessionOnly = true) :
    (clearCart now nowMs w).sessionOnly = true := by
  unfold clearCart
  split
  · exact saveToStorage_sessionOnly_mono _ _ _ (by simp [hw])
  · simpa using hw

/-- `loadFromStorage` out of a session-only state stays session-only. -/
theorem loadFromStorage_sessionOnly_mono (now : String) (nowMs : ℕ) (catalog : Catalog)
    (w : CartWorld) (hw : w.sessionOnly = true) :
    (loadFromStorage now nowMs catalog w).sessionOnly = true := by
  unfold loadFromStorage
  dsimp only
  split
  · split
    · exact saveToStorage_sessionOnly_mono _ _ _ (by simp [hw])
    · simpa using hw
  · exact hw

/-- C7: once the manager is in session-only mode, `saveToStorage` is a
no-op (the state, storage included, is unchanged), `getStorageInfo` reports
`sessionOnly`, and no public operation — mutation, persistence, reload,
revalidation or storage wipe — ever leaves session-only mode;
`_handleStorageError` is what enters it. -/
theorem c7_session_only_absorbing (now : String) (nowMs : ℕ) (catalog : Catalog)
    (w : CartWorld) (h : w.sessionOnly = true) :
    saveToStorage now nowMs w = w ∧
    (getStorageInfo w).sessionOnly = true ∧
    (∀ op, (applyOp now nowMs catalog op w).sessionOnly = true) ∧
    (∀ kind w', (handleStorageError kind w').sessionOnly = true) := by
  refine ⟨saveToStorage_sessionOnly now nowMs w h, by simp [getStorageInfo, h], ?_, ?_⟩
  · intro op
    cases op with
    | add pid q =>
      dsimp only [applyOp]
      split
      · exact addItem_sessionOnly_mono now nowMs catalog pid q w h _ ‹_›
      · exact h
    | remove pid =>
      dsimp only [applyOp]
      split
      · exact removeItem_sessionOnly_mono now nowMs pid w h _ ‹_›
      · exact h
    | update pid q =>
      dsimp only [applyOp]
      split
      · exact updateQuantity_sessionOnly_mono now nowMs catalog pid q w h _ ‹_›
      · exact h
    | clear => exact clearCart_sessionOnly_mono now nowMs w h
    | save => exact saveToStorage_sessionOnly_mono now nowMs w h
    | load => exact loadFromStorage_sessionOnly_mono now nowMs catalog w h
    | reload => exact loadFromStorage_sessionOnly_mono now nowMs catalog w h
    | wipeStorage => exact h
    | revalidate => exact h
  · intro kind w'
    cases kind <;> rfl

/-- A degraded manager state, for the C7 witness. -/
def sessionOnlyWorld : CartWorld :=
  { items := [], sessionOnly := true, events := [], store := emptyStore }

/-- C7, witnessed on a degraded state: the save is a no-op, the flag is
reported, and a subsequent operation stays session-only. -/
theorem c7_session_only_absorbing_witness :
    sessionOnlyWorld.sessionOnly = true ∧
    saveToStorage "T1" 0 sessionOnlyWorld = sessionOnlyWorld ∧
    (getStorageInfo sessionOnlyWorld).sessionOnly = true ∧
    (applyOp "T1" 0 testCatalog CartOp.clear sessionOnlyWorld).sessionOnly = true := by
  have h := c7_session_only_absorbing "T1" 0 testCatalog sessionOnlyWorld rfl
  exact ⟨rfl, h.1, h.2.1, h.2.2.1 CartOp.clear⟩

/-! ## C8, supporting lemmas -/

/-- `digitChar` always yields a decimal digit character. -/
theorem digitChar_isDigit (d : ℕ) : isDigitCh (digitChar d) = true := by
  unfold digitChar
  split <;> rfl

/-- The numeric value of a rendered digit. -/
theorem digitChar_val (d : ℕ) (h : d < 10) : (digitChar d).toNat - '0'.toNat = d := by
  interval_cases d <;> rfl

/-- `digitsToNat` over an appended digit. -/
theorem digitsToNat_append_digit (xs : List Char) (c : Char) :
    digitsToNat (xs ++ [c]) = digitsToNat xs * 10 + (c.toNat - '0'.toNat) := by
  unfold digitsToNat
  rw [List.foldl_append]
  rfl

/-- The decimal rendering round-trips through `digitsToNat`, is non-empty,
and consists of digit characters. -/
theorem natPrintAux_spec : ∀ (fuel n : ℕ), n < fuel →
    digitsToNat (natPrintAux fuel n) = n ∧ natPrintAux fuel n ≠ [] ∧
    ∀ c ∈ natPrintAux fuel n, isDigitCh c = true := by
  intro fuel
  induction fuel with
  | zero => omega
  | succ f ih =>
    intro n hn
    unfold natPrintAux
    by_cases h10 : n < 10
    · simp only [h10, if_true]
      refine ⟨?_, by simp, ?_⟩
      · show digitsToNat ([] ++ [digitChar n]) = n
        rw [digitsToNat_append_digit, digitChar_val n h10]
        have h0 : digitsToNat [] = 0 := rfl
        omega
      · intro c hc
        simp only [List.mem_singleton] at hc
        rw [hc]
        exact digitChar_isDigit n
    · simp only [h10, if_false]
      have hdiv : n / 10 < f := by omega
      obtain ⟨hrt, hne, hdig⟩ := ih (n / 10) hdiv
      refine ⟨?_, by simp, ?_⟩
      · rw [digitsToNat_append_digit, hrt, digitChar_val (n % 10) (by omega)]
        omega
      · intro c hc
        rcases List.mem_append.mp hc with h | h
        · exact hdig c h
        · simp only [List.mem_singleton] at h
          rw [h]
          exact digitChar_isDigit (n % 10)

/-- A whitespace character is not a digit. -/
theorem ws_not_digit (c : Char) (h : jsTrimWs c = true) : isDigitCh c = false := by
  unfold jsTrimWs at h
  simp only [Bool.or_eq_true, decide_eq_true_eq] at h
  rcases h with (((((h | h) | h) | h) | h) | h) <;> subst h <;> rfl

/-- A digit list is untouched by the whitespace skip. -/
theorem dropWhile_ws_digits (ds : List Char) (h : ∀ c ∈ ds, isDigitCh c = true) :
    ds.dropWhile jsTrimWs = ds := by
  cases ds with
  | nil => rfl
  | cons c rest =>
    have hc := h c (List.mem_cons_self c rest)
    have hfalse : jsTrimWs c = false := by
      cases hw : jsTrimWs c
      · rfl
      · rw [ws_not_digit c hw] at hc; cases hc
    simp [List.dropWhile_cons, hfalse]

/-- A digit list is wholly taken by the digit scan. -/
theorem takeWhile_digits (ds : List Char) (h : ∀ c ∈ ds, isDigitCh c = true) :
    ds.takeWhile isDigitCh = ds := by
  induction ds with
  | nil => rfl
  | cons c rest ih =>
    simp [List.takeWhile_cons, h c (List.mem_cons_self c rest),
      ih (fun x hx => h x (List.mem_cons_of_mem c hx))]

/-- `parseInt` inverts the decimal rendering. -/
theorem jsParseIntZ_natToString (n : ℕ) : jsParseIntZ (natToString n) = some (n : ℤ) := by
  obtain ⟨hrt, hne, hdig⟩ := natPrintAux_spec (n + 1) n (by omega)
  cases hds : natPrintAux (n + 1) n with
  | nil => exact absurd hds hne
  | cons c rest =>
    rw [hds] at hrt hdig
    have hc : isDigitCh c = true := hdig c (List.mem_cons_self c rest)
    have hcm : ¬ (c = '-') := by
      intro h
      rw [h] at hc
      cases hc
    have hcp : ¬ (c = '+') := by
      intro h
      rw [h] at hc
      cases hc
    have hlist : (natToString n).toList = c :: rest := by
      show (String.mk (natPrintAux (n + 1) n)).toList = c :: rest
      rw [hds]
      rfl
    unfold jsParseIntZ
    rw [hlist, dropWhile_ws_digits _ hdig]
    simp only [hcm, hcp, if_false]
    rw [takeWhile_digits _ hdig]
    simp [hrt]

/-- The character list of the backup-key separator. -/
def sepChars : List Char := "_backup_".toList

/-- A list is a lead of itself extended. -/
theorem isPrefixOf_append_self (a b : List Char) : a.isPrefixOf (a ++ b) = true := by
  induction a with
  | nil => simp [List.isPrefixOf]
  | cons c rest ih => simpa [List.isPrefixOf] using ih

/-- Where the separator matches, the first character is an underscore. -/
theorem sep_match_head (c : Char) (rest : List Char)
    (h : sepChars.isPrefixOf (c :: rest) = true) : c = '_' := by
  have : sepChars = '_' :: "backup_".toList := rfl
  rw [this] at h
  simp only [List.isPrefixOf, Bool.and_eq_true, beq_iff_eq] at h
  exact h.1.symm

/-- `splitGo` leaves a separator-free digit tail in one piece. -/
theorem splitGo_digits (ds : List Char) : ∀ (fuel : ℕ) (acc : List Char),
    (∀ c ∈ ds, isDigitCh c = true) →
    splitGo sepChars fuel acc ds = [acc.reverse ++ ds] := by
  induction ds with
  | nil =>
    intro fuel acc _
    cases fuel <;> simp [splitGo]
  | cons c rest ih =>
    intro fuel acc h
    cases fuel with
    | zero => simp [splitGo]
    | succ f =>
      have hc : isDigitCh c = true := h c (List.mem_cons_self c rest)
      have hns : sepChars.isPrefixOf (c :: rest) = false := by
        cases hp : sepChars.isPrefixOf (c :: rest)
        · rfl
        · rw [sep_match_head c rest hp] at hc
          cases hc
      unfold splitGo
      rw [hns]
      simp only [Bool.false_eq_true, if_false]
      rw [ih f (c :: acc) (fun x hx => h x (List.mem_cons_of_mem c hx))]
      simp

/-- `splitGo` cuts `key ++ sep ++ digits` at the separator when the key has
no underscore. -/
theorem splitGo_key_sep_digits (ks : List Char) : ∀ (fuel : ℕ) (acc : List Char)
    (ds : List Char), '_' ∉ ks → (∀ c ∈ ds, isDigitCh c = true) →
    ks.length + sepChars.length + ds.length < fuel →
    splitGo sepChars fuel acc (ks ++ sepChars ++ ds) = [acc.reverse ++ ks, ds] := by
  induction ks with
  | nil =>
    intro fuel acc ds _ hds hfuel
    cases fuel with
    | zero => simp at hfuel
    | succ f =>
      simp only [List.nil_append]
      have hcs : sepChars ++ ds = '_' :: ("backup_".toList ++ ds) := rfl
      have hpre : sepChars.isPrefixOf ('_' :: ("backup_".toList ++ ds)) = true := by
        rw [← hcs]
        exact isPrefixOf_append_self _ _
      have hdrop : List.drop sepChars.length ('_' :: ("backup_".toList ++ ds)) = ds := by
        rw [← hcs]
        exact List.drop_left _ _
      rw [hcs]
      simp only [splitGo]
      rw [if_pos hpre, hdrop, splitGo_digits ds f [] hds]
      simp
  | cons c ks' ih =>
    intro fuel acc ds hks hds hfuel
    cases fuel with
    | zero => simp at hfuel
    | succ f =>
      have hcu : c ≠ '_' := fun h => hks (h ▸ List.mem_cons_self c ks')
      have hns : ¬ (sepChars.isPrefixOf (c :: (ks' ++ sepChars ++ ds)) = true) := by
        intro hp
        exact absurd (sep_match_head _ _ hp) hcu
      have heq : (c :: ks') ++ sepChars ++ ds = c :: (ks' ++ sepChars ++ ds) := by simp
      rw [heq]
      simp only [splitGo]
      rw [if_neg hns]
      rw [ih f (c :: acc) ds (fun h => hks (List.mem_cons_of_mem c h)) hds
        (by simp at hfuel ⊢; omega)]
      simp

/-- `String.split` of a backup key recovers the original key and the
rendered stamp. -/
theorem jsSplit_mkBackupKey (key : String) (hkey : '_' ∉ key.toList) (t : ℕ) :
    jsSplit (mkBackupKey key t) "_backup_" = [key, natToString t] := by
  obtain ⟨hrt, hne, hdig⟩ := natPrintAux_spec (t + 1) t (by omega)
  have hlist : (mkBackupKey key t).toList =
      key.toList ++ sepChars ++ (natToString t).toList := by
    show (key ++ "_backup_" ++ natToString t).data = _
    rw [String.data_append, String.data_append]
    rfl
  have hdig' : ∀ c ∈ (natToString t).toList, isDigitCh c = true := hdig
  unfold jsSplit
  rw [hlist]
  rw [show ("_backup_" : String).toList = sepChars from rfl]
  rw [splitGo_key_sep_digits key.toList _ [] (natToString t).toList hkey hdig'
    (by simp [List.length_append]; omega)]
  simp only [List.map_cons, List.map_nil, List.reverse_nil, List.nil_append]
  have h1 : String.mk key.toList = key := rfl
  have h2 : String.mk (natToString t).toList = natToString t := rfl
  rw [h1, h2]

/-- The embedded stamp of a generated backup key. -/
theorem jsSortStamp_mkBackupKey (key : String) (hkey : '_' ∉ key.toList) (t : ℕ) :
    jsSortStamp (mkBackupKey key t) = (t : ℤ) := by
  unfold jsSortStamp
  rw [jsSplit_mkBackupKey key hkey t]
  simp [jsParseIntZ_natToString]

/-- Inserting permutes with consing. -/
theorem insertOrd_perm {α : Type} (le : α → α → Bool) (x : α) :
    ∀ l : List α, (insertOrd le x l).Perm (x :: l) := by
  intro l
  induction l with
  | nil => simp [insertOrd]
  | cons y rest ih =>
    unfold insertOrd
    split
    · exact List.Perm.refl _
    · exact List.Perm.trans (List.Perm.cons y ih) (List.Perm.swap x y rest)

/-- The stable insertion sort permutes its input. -/
theorem sortOrd_perm {α : Type} (le : α → α → Bool) :
    ∀ l : List α, (sortOrd le l).Perm l := by
  intro l
  induction l with
  | nil => exact List.Perm.refl _
  | cons x rest ih =>
    exact List.Perm.trans (insertOrd_perm le x (sortOrd le rest)) (List.Perm.cons x ih)

/-- Inserting into a sorted list keeps it sorted (`le` total and
transitive). -/
theorem insertOrd_pairwise {α : Type} (le : α → α → Bool)
    (htot : ∀ a b, le a b = true ∨ le b a = true)
    (htrans : ∀ a b c, le a b = true → le b c = true → le a c = true)
    (x : α) : ∀ l : List α, l.Pairwise (fun a b => le a b = true) →
    (insertOrd le x l).Pairwise (fun a b => le a b = true) := by
  intro l
  induction l with
  | nil => intro _; simp [insertOrd]
  | cons y rest ih =>
    intro h
    rw [List.pairwise_cons] at h
    obtain ⟨hy, hrest⟩ := h
    unfold insertOrd
    split
    · rename_i hxy
      rw [List.pairwise_cons]
      refine ⟨?_, List.pairwise_cons.mpr ⟨hy, hrest⟩⟩
      intro z hz
      rcases List.mem_cons.mp hz with h | h
      · rw [h]; exact hxy
      · exact htrans x y z hxy (hy z h)
    · rename_i hxy
      have hyx : le y x = true := by
        rcases htot x y with h | h
        · exact absurd h hxy
        · exact h
      rw [List.pairwise_cons]
      refine ⟨?_, ih hrest⟩
      intro z hz
      rcases List.mem_cons.mp ((insertOrd_perm le x rest).mem_iff.mp hz) with h | h
      · rw [h]
        exact hyx
      · exact hy z h

/-- The stable insertion sort sorts (`le` total and transitive). -/
theorem sortOrd_pairwise {α : Type} (le : α → α → Bool)
    (htot : ∀ a b, le a b = true ∨ le b a = true)
    (htrans : ∀ a b c, le a b = true → le b c = true → le a c = true) :
    ∀ l : List α, (sortOrd le l).Pairwise (fun a b => le a b = true) := by
  intro l
  induction l with
  | nil => simp [sortOrd]
  | cons x rest ih => exact insertOrd_pairwise le htot htrans x _ ih

/-- Setting an absent key appends the new entry. -/
theorem setEntry_not_mem (k v : String) :
    ∀ l : List (String × String), k ∉ l.map Prod.fst → setEntry k v l = l ++ [(k, v)] := by
  intro l
  induction l with
  | nil => intro _; rfl
  | cons e rest ih =>
    intro h
    simp only [List.map_cons, List.mem_cons] at h
    push_neg at h
    unfold setEntry
    rw [if_neg (fun he => h.1 he.symm), ih h.2]
    rfl

/-- Filtering entries by a key predicate commutes with projecting keys. -/
theorem map_fst_filter_keys (p : String → Bool) :
    ∀ l : List (String × String),
      (l.filter (fun e => p e.1)).map Prod.fst = (l.map Prod.fst).filter p := by
  intro l
  induction l with
  | nil => rfl
  | cons e rest ih =>
    simp only [List.filter_cons, List.map_cons]
    cases hp : p e.1 <;> simp [hp, ih]

/-- Two filters commute. -/
theorem filter_swap {α : Type} (p q : α → Bool) :
    ∀ l : List α, (l.filter p).filter q = (l.filter q).filter p := by
  intro l
  induction l with
  | nil => rfl
  | cons x rest ih =>
    simp only [List.filter_cons]
    cases hp : p x <;> cases hq : q x <;> simp [List.filter_cons, hp, hq, ih]

/-- The generated backup key extends the scanned lead. -/
theorem strStartsWith_mkBackupKey (key : String) (t : ℕ) :
    strStartsWith (mkBackupKey key t) (key ++ "_backup_") = true := by
  unfold strStartsWith mkBackupKey
  rw [show (key ++ "_backup_" ++ natToString t).toList =
    (key ++ "_backup_").toList ++ (natToString t).toList from String.data_append _ _]
  exact isPrefixOf_append_self _ _

/-- The backup records a store holds for an original key. -/
def backupKeysOf (store : Store) (key : String) : List String :=
  store.keys.filter (fun k => strStartsWith k (key ++ "_backup_"))

/-- A store obtained by a sequence of `createBackup` calls at the given
epoch-millis stamps, starting from an empty storage. -/
def backupFold (key : String) (stamps : List ℕ) : Store :=
  stamps.foldl (fun st t => createBackup "iso" t key (Json.str "d") st) emptyStore

/-- Pruning commutes with scanning for backup keys: after cleanup the
backup keys are the old ones minus the dropped tail of the sorted list. -/
theorem backupKeysOf_cleanup (key : String) (st : Store) :
    backupKeysOf (cleanupOldBackups key st) key =
      (backupKeysOf st key).filter
        (fun k => !(((sortOrd stampGe (backupKeysOf st key)).drop 5).contains k)) := by
  unfold backupKeysOf cleanupOldBackups Store.keys
  dsimp only
  rw [map_fst_filter_keys
    (fun k => !(((sortOrd stampGe ((st.entries.map Prod.fst).filter
      (fun k => strStartsWith k (key ++ "_backup_")))).drop 5).contains k)) st.entries]
  rw [filter_swap]

/-- The descending-stamp comparison is total. -/
theorem stampGe_total (a b : String) : stampGe a b = true ∨ stampGe b a = true := by
  unfold stampGe
  rcases le_total (jsSortStamp b) (jsSortStamp a) with h | h
  · left; simpa using h
  · right; simpa using h

/-- The descending-stamp comparison is transitive. -/
theorem stampGe_trans (a b c : String) (h₁ : stampGe a b = true) (h₂ : stampGe b c = true) :
    stampGe a c = true := by
  unfold stampGe at h₁ h₂ ⊢
  simp only [decide_eq_true_eq] at h₁ h₂ ⊢
  omega

/-- C8 amended: for an original key containing no underscore (so the
embedded epoch-millis stamp is extracted correctly — the counterexample
shows keys containing `_backup_` break the rotation), when the store's
backup records for the key carry pairwise distinct stamps `ts` and the new
stamp is fresh, after `createBackup` at most five records remain — exactly
`min 5 (ts.length + 1)` of them, without duplicates, all drawn from the old
stamps plus the new one — and every surviving stamp is strictly more recent
than every discarded one (oldest discarded first). -/
theorem c8_backup_rotation (key : String) (hkey : '_' ∉ key.toList)
    (nowIso : String) (nowMs : ℕ) (data : Json) (st : Store)
    (hfail : st.failMode = none) (hnodup : st.keys.Nodup)
    (ts : List ℕ)
    (hts : backupKeysOf st key = ts.map (mkBackupKey key))
    (htsnodup : ts.Nodup) (hnew : nowMs ∉ ts) :
    (backupKeysOf (createBackup nowIso nowMs key data st) key).length =
      min 5 (ts.length + 1) ∧
    (backupKeysOf (createBackup nowIso nowMs key data st) key).Nodup ∧
    (∀ k ∈ backupKeysOf (createBackup nowIso nowMs key data st) key,
      ∃ t, t ∈ nowMs :: ts ∧ k = mkBackupKey key t) ∧
    (∀ t u, t ∈ nowMs :: ts → u ∈ nowMs :: ts →
      mkBackupKey key t ∈ backupKeysOf (createBackup nowIso nowMs key data st) key →
      mkBackupKey key u ∉ backupKeysOf (createBackup nowIso nowMs key data st) key →
      u < t) := by
  have hstamp : ∀ t : ℕ, jsSortStamp (mkBackupKey key t) = (t : ℤ) :=
    jsSortStamp_mkBackupKey key hkey
  have hPnew : strStartsWith (mkBackupKey key nowMs) (key ++ "_backup_") = true :=
    strStartsWith_mkBackupKey key nowMs
  have hmkinj : ∀ t u : ℕ, mkBackupKey key t = mkBackupKey key u → t = u := by
    intro t u h
    have : (t : ℤ) = (u : ℤ) := by rw [← hstamp t, ← hstamp u, h]
    exact_mod_cast this
  have hnewmem : mkBackupKey key nowMs ∉ st.keys := by
    intro hmem
    have h1 : mkBackupKey key nowMs ∈ backupKeysOf st key :=
      List.mem_filter.mpr ⟨hmem, hPnew⟩
    rw [hts] at h1
    obtain ⟨t, ht, hteq⟩ := List.mem_map.mp h1
    exact hnew ((hmkinj t nowMs hteq) ▸ ht)
  obtain ⟨v, hv⟩ : ∃ v, createBackup nowIso nowMs key data st =
      cleanupOldBackups key
        { st with entries := st.entries ++ [(mkBackupKey key nowMs, v)] } := by
    refine ⟨stringifyJson (Json.obj [("originalKey", .str key), ("data", data),
      ("timestamp", .str nowIso), ("version", .str "1.0")]), ?_⟩
    unfold createBackup
    rw [hfail]
    dsimp only
    rw [setEntry_not_mem _ _ _ (by simpa [Store.keys] using hnewmem)]
  set st₁ : Store :=
    { st with entries := st.entries ++ [(mkBackupKey key nowMs, v)] } with hst₁
  have keys₁ : st₁.keys = st.keys ++ [mkBackupKey key nowMs] := by
    simp [hst₁, Store.keys]
  have nodup₁ : st₁.keys.Nodup := by
    rw [keys₁, List.nodup_append]
    refine ⟨hnodup, List.nodup_singleton _, ?_⟩
    intro a ha hb
    simp only [List.mem_singleton] at hb
    subst hb
    exact hnewmem ha
  have bkeys₁ : backupKeysOf st₁ key = (ts ++ [nowMs]).map (mkBackupKey key) := by
    unfold backupKeysOf
    rw [keys₁, List.filter_append]
    have h1 : st.keys.filter (fun k => strStartsWith k (key ++ "_backup_")) =
        ts.map (mkBackupKey key) := hts
    rw [h1]
    simp [hPnew]
  have bknodup : (backupKeysOf st₁ key).Nodup := by
    unfold backupKeysOf
    exact nodup₁.filter _
  set sorted := sortOrd stampGe (backupKeysOf st₁ key) with hsorted
  have hperm : sorted.Perm (backupKeysOf st₁ key) := sortOrd_perm _ _
  have hsortnodup : sorted.Nodup := (hperm.nodup_iff).mpr bknodup
  have hpair : sorted.Pairwise (fun a b => stampGe a b = true) :=
    sortOrd_pairwise stampGe stampGe_total stampGe_trans _
  set rem := sorted.drop 5 with hrem
  set keep := sorted.take 5 with hkeep
  have hta : keep ++ rem = sorted := List.take_append_drop 5 sorted
  have hA : backupKeysOf (createBackup nowIso nowMs key data st) key =
      (backupKeysOf st₁ key).filter (fun k => !(rem.contains k)) := by
    rw [hv, backupKeysOf_cleanup]
  have hdisj : List.Disjoint keep rem := by
    apply List.disjoint_of_nodup_append
    rw [hta]
    exact hsortnodup
  have hpermA : (backupKeysOf (createBackup nowIso nowMs key data st) key).Perm keep := by
    rw [hA]
    have h1 := (List.Perm.filter (fun k => !(rem.contains k)) hperm.symm)
    rw [← hta, List.filter_append] at h1
    have h2 : rem.filter (fun k => !(rem.contains k)) = [] := by
      rw [List.filter_eq_nil_iff]
      intro a ha
      simp [ha]
    have h3 : keep.filter (fun k => !(rem.contains k)) = keep := by
      rw [List.filter_eq_self]
      intro a ha
      simpa using hdisj ha
    rw [h2, h3, List.append_nil] at h1
    exact h1
  have hmemA : ∀ k, k ∈ backupKeysOf (createBackup nowIso nowMs key data st) key ↔ k ∈ keep := by
    intro k
    exact hpermA.mem_iff
  refine ⟨?_, ?_, ?_, ?_⟩
  · rw [hpermA.length_eq, hkeep, List.length_take, hperm.length_eq, bkeys₁]
    simp
  · exact (hpermA.nodup_iff).mpr ((List.nodup_append.mp (hta ▸ hsortnodup)).1)
  · intro k hk
    have hkb : k ∈ backupKeysOf st₁ key := (List.mem_filter.mp (hA ▸ hk)).1
    rw [bkeys₁] at hkb
    obtain ⟨t, ht, hteq⟩ := List.mem_map.mp hkb
    refine ⟨t, ?_, hteq.symm⟩
    rcases List.mem_append.mp ht with h | h
    · exact List.mem_cons_of_mem _ h
    · simp only [List.mem_singleton] at h
      rw [h]
      exact List.mem_cons_self _ _
  · intro t u htmem humem htin hunot
    have hune : u ≠ t := by
      intro h
      rw [h] at hunot
      exact hunot htin
    have hub : mkBackupKey key u ∈ backupKeysOf st₁ key := by
      rw [bkeys₁]
      apply List.mem_map.mpr
      refine ⟨u, ?_, rfl⟩
      rcases List.mem_cons.mp humem with h | h
      · rw [h]; simp
      · exact List.mem_append.mpr (Or.inl h)
    have hus : mkBackupKey key u ∈ sorted := hperm.mem_iff.mpr hub
    have hurem : mkBackupKey key u ∈ rem := by
      rcases List.mem_append.mp (hta ▸ hus) with h | h
      · exact absurd ((hmemA _).mpr h) hunot
      · exact h
    have htkeep : mkBackupKey key t ∈ keep := (hmemA _).mp htin
    have hrel : stampGe (mkBackupKey key t) (mkBackupKey key u) = true := by
      have hp := hpair
      rw [← hta] at hp
      exact (List.pairwise_append.mp hp).2.2 _ htkeep _ hurem
    have : (u : ℤ) ≤ (t : ℤ) := by
      have := hrel
      unfold stampGe at this
      rw [hstamp t, hstamp u] at this
      simpa using this
    have hle : u ≤ t := by exact_mod_cast this
    omega


/-- C8 counterexample: the spec says at most the five most recent backups
are kept, but for the original key `a_backup_0` (which itself contains
`_backup_`) the stamp extracted by `split('_backup_')[1]` is the constant
`0`, the stable sort leaves insertion order, and seven successive
`createBackup` calls keep the five OLDEST backups: the newest record
(stamp 7) is evicted immediately. -/
theorem c8_counterexample :
    (backupFold "a_backup_0" [1,2,3,4,5,6,7]).keys =
      ["a_backup_0_backup_1", "a_backup_0_backup_2", "a_backup_0_backup_3",
       "a_backup_0_backup_4", "a_backup_0_backup_5"] ∧
    "a_backup_0_backup_7" ∉ (backupFold "a_backup_0" [1,2,3,4,5,6,7]).keys := by
  constructor
  · rfl
  · decide

/-- C8 witness: a store holding backups of `cart` at stamps 2..6, after a
`createBackup` at stamp 7, holds exactly `min 5 (5 + 1) = 5` backup
records, as the rotation theorem predicts. -/
theorem c8_backup_rotation_witness :
    (backupKeysOf (createBackup "now" 7 "cart" (Json.str "d")
        (backupFold "cart" [2,3,4,5,6])) "cart").length =
      min 5 (([2,3,4,5,6] : List ℕ).length + 1) := by
  have h := c8_backup_rotation "cart" (by decide) "now" 7 (Json.str "d")
    (backupFold "cart" [2,3,4,5,6]) rfl (by decide) [2,3,4,5,6] rfl (by decide) (by decide)
  exact h.1

end ShopCart
